import Mathlib

/-! Verification development for the ES6 feature-showcase dashboard.

The repository is a browser dashboard (`FeatureDashboard`) dispatching click
events to six demo modules (`DestructuringDemo`, `SpreadRestDemo`,
`ArrowFunctionDemo`, `TemplateLiteralDemo`, `AdvancedPatternsDemo`,
`PerformanceDemo`), each exposing one `run()` operation that returns an object
`{ output, code }` of two strings.  This file shallowly embeds the demo
modules and the dashboard glue: JavaScript objects become structures, the DOM
becomes an explicit state record, timers become explicit event traces,
exceptions become `Except`, and JavaScript numbers become `ℚ` (only order,
ring operations and fixed-point rendering of these quantities reach any demo
output, so exact rationals are a faithful model of the values that matter).
Nondeterministic browser primitives (`Date.now`, `new Date().toISOString()`,
`performance.now()`, the random `testData`) are threaded as parameters. -/

/-- JavaScript boolean-to-string coercion, as produced in a template literal. -/
def jsBool (b : Bool) : String := if b then "true" else "false"

/-- JavaScript `Math.round`: round half toward positive infinity. -/
def jsRound (q : ℚ) : Int := ⌊q + 1 / 2⌋

/-- JavaScript `Number.prototype.toFixed(k)`: fixed-point rendering with `k`
fractional digits. -/
def jsToFixed (q : ℚ) (k : Nat) : String :=
  let scaled : Int := jsRound (q * ((10 : ℚ) ^ k))
  let sign := if scaled < 0 then "-" else ""
  let a := scaled.natAbs
  let ip := a / 10 ^ k
  let fp := a % 10 ^ k
  if k = 0 then sign ++ toString ip
  else
    let fs := toString fp
    let pad := String.mk (List.replicate (k - fs.length) '0')
    sign ++ toString ip ++ "." ++ pad ++ fs

/-- Template-literal rendering of a JavaScript number.  Every number that
reaches a demo output either goes through `toFixed`/`Math.round` or is an
integer, so only the integer case of this rendering is exercised. -/
def qToString (q : ℚ) : String :=
  if q.den = 1 then toString q.num else toString q.num ++ "/" ++ toString q.den

/-- Whether the first list is a prefix of the second (computably, for
`String.prototype.startsWith`). -/
def charListPrefix : List Char → List Char → Bool
  | [], _ => true
  | _ :: _, [] => false
  | c :: cs, d :: ds => c == d && charListPrefix cs ds

/-- JavaScript `s.startsWith(pre)`. -/
def jsStartsWith (s pre : String) : Bool := charListPrefix pre.data s.data

/-- JavaScript `s.includes(c)` for a one-character needle. -/
def jsIncludesChar (s : String) (c : Char) : Bool := s.data.contains c

/-- JavaScript `s.slice(n)` (character count; the demos only slice ASCII). -/
def jsSliceFrom (s : String) (n : Nat) : String := String.mk (s.data.drop n)

/-- JavaScript `s.toLowerCase()` (ASCII). -/
def jsToLowerCase (s : String) : String := String.mk (s.data.map Char.toLower)

/-- JavaScript `s.toUpperCase()` (ASCII). -/
def jsToUpperCase (s : String) : String := String.mk (s.data.map Char.toUpper)

/-- JavaScript `s.trim()`: strip leading and trailing whitespace. -/
def jsTrim (s : String) : String :=
  String.mk (((s.data.dropWhile Char.isWhitespace).reverse.dropWhile Char.isWhitespace).reverse)

/-- JavaScript `s.padEnd(n)`: pad with spaces up to length `n`. -/
def jsPadEnd (s : String) (n : Nat) : String :=
  s ++ String.mk (List.replicate (n - s.length) ' ')

/-- Whether the first list occurs contiguously in the second. -/
def charListSub (needle : List Char) : List Char → Bool
  | [] => charListPrefix needle []
  | c :: rest => charListPrefix needle (c :: rest) || charListSub needle rest

/-- JavaScript `s.includes(sub)` for a string needle. -/
def jsIncludesStr (s sub : String) : Bool := charListSub sub.data s.data

/-- The object a demo's `run()` resolves to: the preformatted display string
and the literal source-code sample. -/
structure DemoResult where
  output : String
  code : String
deriving Repr, DecidableEq

/-! ## A small model of JavaScript values, for the places where the demos
treat data dynamically (`JSON.stringify`, path lookup with `value?.[key]`). -/

/-- A JavaScript value tree (the fragment the demos build). -/
inductive JsonV where
  | str (s : String)
  | num (n : Int)
  | bool (b : Bool)
  | undefined
  | arr (items : List JsonV)
  | obj (fields : List (String × JsonV))
deriving Repr, Inhabited

/-- A run of `n` spaces, for `JSON.stringify(v, null, 2)` indentation. -/
def jsonIndent (n : Nat) : String := String.mk (List.replicate n ' ')

mutual

/-- `JSON.stringify(v, null, 2)` at indentation level `ind` (the fragment the
demos serialize: strings, integers, booleans, arrays and plain objects). -/
def jsonStringify (ind : Nat) : JsonV → String
  | .str s => "\"" ++ s ++ "\""
  | .num n => toString n
  | .bool b => jsBool b
  | .undefined => "undefined"
  | .arr items =>
      if items.isEmpty then "[]"
      else
        "[\n" ++ String.intercalate ",\n" (jsonStringifyItems (ind + 2) items) ++
          "\n" ++ jsonIndent ind ++ "]"
  | .obj fields =>
      let rendered := jsonStringifyFields (ind + 2) fields
      if rendered.isEmpty then "\x7b\x7d"
      else
        "\x7b\n" ++ String.intercalate ",\n" rendered ++
          "\n" ++ jsonIndent ind ++ "\x7d"

/-- The rendered elements of an array, each on its own indented line. -/
def jsonStringifyItems (ind : Nat) : List JsonV → List String
  | [] => []
  | v :: vs => (jsonIndent ind ++ jsonStringify ind v) :: jsonStringifyItems ind vs

/-- The rendered fields of an object; `JSON.stringify` omits fields whose
value is `undefined`. -/
def jsonStringifyFields (ind : Nat) : List (String × JsonV) → List String
  | [] => []
  | (k, v) :: fs =>
      match v with
      | .undefined => jsonStringifyFields ind fs
      | v =>
          (jsonIndent ind ++ "\"" ++ k ++ "\": " ++ jsonStringify ind v) ::
            jsonStringifyFields ind fs

end

/-- Property access `value?.[key]` on a JavaScript value: object field lookup,
numeric-string indexing on arrays, `undefined` elsewhere. -/
def jsonGet (v : JsonV) (key : String) : JsonV :=
  match v with
  | .obj fields => ((fields.find? (fun kv => kv.1 = key)).map (fun kv => kv.2)).getD .undefined
  | .arr items =>
      match key.toNat? with
      | some i => (items.get? i).getD .undefined
      | none => .undefined
  | _ => .undefined

/-- The loop `for (const key of keys) value = value?.[key]` over a dotted
property path. -/
def jsonPath (v : JsonV) (path : String) : JsonV :=
  (path.splitOn ".").foldl jsonGet v

/-! ## DestructuringDemo (src module `destructuring.js`) -/

namespace Destructuring

/-- One address object of `sampleData.user.addresses`. -/
structure Address where
  type : String
  city : String
  zipCode : String
deriving Repr, DecidableEq

/-- `sampleData.user.preferences.notifications`.  The `push` property is kept
as an `Option` because the destructuring site `push: pushNotif = true` applies
its default exactly when the property is `undefined`. -/
structure Notifications where
  email : Bool
  push : Option Bool
  sms : Bool
deriving Repr, DecidableEq

/-- `sampleData.user.preferences`. -/
structure Preferences where
  theme : String
  notifications : Notifications
deriving Repr, DecidableEq

/-- `sampleData.user`. -/
structure User where
  id : Nat
  name : String
  email : String
  preferences : Preferences
  addresses : List Address
deriving Repr, DecidableEq

/-- One product of `sampleData.products`.  The default object
`\x7b name: "No more products", price: 0 \x7d` used by the array-destructuring
demo only carries `name` and `price`; its `id` and `category` are never read,
so they are filled with `0` and `""` here. -/
structure Product where
  id : Nat
  name : String
  price : Int
  category : String
deriving Repr, DecidableEq

/-- The constructor's fixed `this.sampleData` literal. -/
structure SampleData where
  user : User
  products : List Product
deriving Repr, DecidableEq

/-- The demo instance: its only constructor-initialized field. -/
structure DestructuringDemo where
  sampleData : SampleData
deriving Repr, DecidableEq

/-- The literal assigned to `this.sampleData` in the constructor. -/
def sampleData : SampleData :=
  { user :=
      { id := 1
        name := "John Doe"
        email := "john@example.com"
        preferences :=
          { theme := "dark"
            notifications := { email := true, push := some false, sms := true } }
        addresses :=
          [ { type := "home", city := "New York", zipCode := "10001" },
            { type := "work", city := "San Francisco", zipCode := "94105" } ] }
    products :=
      [ { id := 1, name := "Laptop", price := 999, category := "Electronics" },
        { id := 2, name := "Book", price := 29, category := "Education" },
        { id := 3, name := "Coffee", price := 5, category := "Food" } ] }

/-- A fresh `new DestructuringDemo()`. -/
def DestructuringDemo.init : DestructuringDemo :=
  { sampleData := Destructuring.sampleData }

/-- `nestedObjectDestructuring()`: the nested destructuring of
`this.sampleData`.  `pushNotif`'s default `true` is applied only when the
stored `push` is undefined; `workAddress`'s default applies only when a second
address is missing (reading `.city` of a missing first address would be a
TypeError in JavaScript and is unreachable for `sampleData`). -/
def nestedObjectDestructuring (d : SampleData) : String :=
  let name := d.user.name
  let email := d.user.email
  let theme := d.user.preferences.theme
  let emailNotif := d.user.preferences.notifications.email
  let pushNotif := (d.user.preferences.notifications.push).getD true
  let homeCity := ((d.user.addresses.get? 0).map Address.city).getD "undefined"
  let workCity := ((d.user.addresses.get? 1).map Address.city).getD "Unknown"
  "🎯 Nested Object Destructuring:\nName: " ++ name ++
    "\nEmail: " ++ email ++
    "\nTheme: " ++ theme ++
    "\nEmail Notifications: " ++ jsBool emailNotif ++
    "\nPush Notifications: " ++ jsBool pushNotif ++
    "\nHome City: " ++ homeCity ++
    "\nWork City: " ++ workCity

/-- The missing-product default of `arrayDestructuringWithDefaults`. -/
def noMoreProducts : Product := { id := 0, name := "No more products", price := 0, category := "" }

/-- A `\x24\x7b p.name \x7d - \x24\x24\x7b p.price \x7d` line fragment. -/
def productLine (p : Product) : String := p.name ++ " - $" ++ toString p.price

/-- `arrayDestructuringWithDefaults()`: the first four products, the fourth
defaulted.  Reading fields of a missing first/second/third product would be a
TypeError in JavaScript and is unreachable for `sampleData`; here the
defaulted lookup is used uniformly. -/
def arrayDestructuringWithDefaults (d : SampleData) : String :=
  let first := (d.products.get? 0).getD noMoreProducts
  let second := (d.products.get? 1).getD noMoreProducts
  let third := (d.products.get? 2).getD noMoreProducts
  let fourth := (d.products.get? 3).getD noMoreProducts
  "📦 Array Destructuring with Defaults:\nFirst Product: " ++ productLine first ++
    "\nSecond Product: " ++ productLine second ++
    "\nThird Product: " ++ productLine third ++
    "\nFourth Product: " ++ productLine fourth

/-- The local `processUser` of `functionParameterDestructuring()`.  Its
parameter defaults (`theme = "light"`, `preferences = \x7b\x7d`,
`addresses = []`) apply only to absent properties; `sampleData.user` carries
all of them. -/
def processUser (u : User) : String :=
  "Processing " ++ u.name ++ " (" ++ u.email ++ ") with " ++ u.preferences.theme ++
    " theme and " ++ toString u.addresses.length ++ " addresses"

/-- `functionParameterDestructuring()`. -/
def functionParameterDestructuring (d : SampleData) : String :=
  "🔧 Function Parameter Destructuring:\n" ++ processUser d.user

/-- `sampleData` as a dynamic JavaScript value, field order as in the
constructor literal, for the dynamic-path demos. -/
def Notifications.toJson (n : Notifications) : JsonV :=
  .obj ([("email", .bool n.email)] ++
    (match n.push with
     | some b => [("push", JsonV.bool b)]
     | none => []) ++
    [("sms", .bool n.sms)])

/-- `preferences` as a dynamic value. -/
def Preferences.toJson (p : Preferences) : JsonV :=
  .obj [("theme", .str p.theme), ("notifications", p.notifications.toJson)]

/-- An address as a dynamic value. -/
def Address.toJson (a : Address) : JsonV :=
  .obj [("type", .str a.type), ("city", .str a.city), ("zipCode", .str a.zipCode)]

/-- `user` as a dynamic value. -/
def User.toJson (u : User) : JsonV :=
  .obj [("id", .num u.id), ("name", .str u.name), ("email", .str u.email),
    ("preferences", u.preferences.toJson),
    ("addresses", .arr (u.addresses.map Address.toJson))]

/-- A product as a dynamic value. -/
def Product.toJson (p : Product) : JsonV :=
  .obj [("id", .num p.id), ("name", .str p.name), ("price", .num p.price),
    ("category", .str p.category)]

/-- `sampleData` as a dynamic value. -/
def SampleData.toJson (d : SampleData) : JsonV :=
  .obj [("user", d.user.toJson), ("products", .arr (d.products.map Product.toJson))]

/-- The local `extractProperties(obj, ...props)` of
`dynamicPropertyExtraction()`: a reduce building `\x7b ...result,
[prop]: value \x7d` from dotted paths. -/
def extractProperties (obj : JsonV) (props : List String) : List (String × JsonV) :=
  props.foldl (fun result prop => result ++ [(prop, jsonPath obj prop)]) []

/-- `dynamicPropertyExtraction()`. -/
def dynamicPropertyExtraction (d : SampleData) : String :=
  let extracted := extractProperties d.toJson
    ["user.name", "user.preferences.theme", "user.addresses.0.city"]
  "🎪 Dynamic Property Extraction:\n" ++ jsonStringify 0 (.obj extracted)

/-- `restPatternInDestructuring()`: rest patterns over products and the user
object.  `otherUserData`'s keys are the user's own enumerable keys minus the
destructured `name` and `email`, in declaration order. -/
def restPatternInDestructuring (d : SampleData) : String :=
  let firstProduct := (d.products.get? 0).getD noMoreProducts
  let restProducts := d.products.drop 1
  let name := d.user.name
  let email := d.user.email
  let otherKeys :=
    match d.user.toJson with
    | .obj fields => (fields.filter (fun kv => kv.1 ≠ "name" ∧ kv.1 ≠ "email")).map (fun kv => kv.1)
    | _ => []
  "🔄 Rest Pattern in Destructuring:\nFirst Product: " ++ firstProduct.name ++
    "\nRemaining Products: " ++ toString restProducts.length ++ " items" ++
    "\nUser Core: " ++ name ++ ", " ++ email ++
    "\nOther User Data Keys: " ++ String.intercalate ", " otherKeys

/-- The literal string returned by `getSourceCode()`. -/
def getSourceCode : String :=
  "\n// Advanced Destructuring Patterns\n\n// 1. Nested Object Destructuring with Defaults\nconst \x7b\n    user: \x7b\n        name,\n        preferences: \x7b\n            notifications: \x7b email: emailNotif, push: pushNotif = true \x7d\n        \x7d,\n        addresses: [homeAddress, workAddress = \x7b city: 'Unknown' \x7d]\n    \x7d\n\x7d = complexData;\n\n// 2. Function Parameter Destructuring\nconst processUser = (\x7b\n    name,\n    email,\n    preferences: \x7b theme = 'light' \x7d = \x7b\x7d,\n    addresses = []\n\x7d) => \x7b\n    // Process user with destructured parameters\n\x7d;\n\n// 3. Dynamic Property Extraction\nconst extractProperties = (obj, ...props) => \x7b\n    return props.reduce((result, prop) => \x7b\n        const keys = prop.split('.');\n        let value = obj;\n        for (const key of keys) \x7b\n            value = value?.[key];\n        \x7d\n        return \x7b ...result, [prop]: value \x7d;\n    \x7d, \x7b\x7d);\n\x7d;\n\n// 4. Rest Pattern in Destructuring\nconst [first, ...rest] = array;\nconst \x7b name, email, ...otherData \x7d = user;\n        "

/-- `run()`: the five examples joined by blank lines, returned with the code
sample.  No method assigns to any instance field, so the instance is returned
unchanged. -/
def DestructuringDemo.run (demo : DestructuringDemo) : DemoResult × DestructuringDemo :=
  let d := demo.sampleData
  let examples :=
    [ nestedObjectDestructuring d,
      arrayDestructuringWithDefaults d,
      functionParameterDestructuring d,
      dynamicPropertyExtraction d,
      restPatternInDestructuring d ]
  ({ output := String.intercalate "\n\n" examples, code := getSourceCode }, demo)

end Destructuring

/-! ## SpreadRestDemo (src module `spreadRest.js`) -/

namespace SpreadRest

/-- The constructor's `this.baseUser` literal. -/
structure BaseUser where
  id : Nat
  name : String
  role : String
deriving Repr, DecidableEq

/-- The constructor's `this.additionalData` literal. -/
structure AdditionalData where
  lastLogin : String
  isActive : Bool
deriving Repr, DecidableEq

/-- The demo instance: its constructor-initialized fields. -/
structure SpreadRestDemo where
  baseUser : BaseUser
  permissions : List String
  additionalData : AdditionalData
deriving Repr, DecidableEq

/-- A fresh `new SpreadRestDemo()`. -/
def SpreadRestDemo.init : SpreadRestDemo :=
  { baseUser := { id := 1, name := "John", role := "user" }
    permissions := ["read", "write"]
    additionalData := { lastLogin := "2024-01-01", isActive := true } }

/-- `objectComposition()`: the `enhancedUser` built by object spread, in
spread order, serialized with `JSON.stringify(enhancedUser, null, 2)`.
`nowIso` is the `new Date().toISOString()` read at call time. -/
def objectComposition (d : SpreadRestDemo) (nowIso : String) : String :=
  let enhancedUser : JsonV :=
    .obj [("id", .num d.baseUser.id), ("name", .str d.baseUser.name),
      ("role", .str d.baseUser.role),
      ("lastLogin", .str d.additionalData.lastLogin),
      ("isActive", .bool d.additionalData.isActive),
      ("permissions", .arr ((d.permissions ++ ["admin"]).map JsonV.str)),
      ("metadata", .obj [("createdAt", .str nowIso), ("version", .str "1.0")])]
  "🏗️ Object Composition:\n" ++ jsonStringify 0 enhancedUser

/-- One user of the `immutableUpdates()` local list; `lastUpdated` and
`isNew` model the properties some spreads add. -/
structure IUser where
  id : Nat
  name : String
  active : Bool
  lastUpdated : Option Int
  isNew : Option Bool
deriving Repr, DecidableEq

/-- `immutableUpdates()`: a map-with-spread update of user 2 (stamped with
`Date.now()`, passed as `nowMs`), then appending a new user. -/
def immutableUpdates (nowMs : Int) : String :=
  let users : List IUser :=
    [ { id := 1, name := "John", active := true, lastUpdated := none, isNew := none },
      { id := 2, name := "Jane", active := false, lastUpdated := none, isNew := none },
      { id := 3, name := "Bob", active := true, lastUpdated := none, isNew := none } ]
  let updatedUsers := users.map (fun user =>
    if user.id = 2 then { user with active := true, lastUpdated := some nowMs } else user)
  let withNewUser := updatedUsers ++
    [{ id := 4, name := "Alice", active := true, lastUpdated := none, isNew := some true }]
  -- `withNewUser.find(u => u.id === 2).active`; the found user exists here
  let janeActive := ((withNewUser.find? (fun u => u.id = 2)).map (fun u => u.active)).getD false
  "🔄 Immutable Updates:\nOriginal Users: " ++ toString users.length ++
    "\nUpdated Users: " ++ toString updatedUsers.length ++
    "\nWith New User: " ++ toString withNewUser.length ++
    "\nJane is now active: " ++ jsBool janeActive

/-- `[...new Set(l)]`: deduplication keeping first occurrences, in order. -/
def jsSetDedup (l : List String) : List String :=
  l.foldl (fun acc s => if s ∈ acc then acc else acc ++ [s]) []

/-- `arrayMerging()`. -/
def arrayMerging : String :=
  let frontend := ["React", "Vue", "Angular"]
  let backend := ["Node.js", "Python", "Java"]
  let databases := ["MongoDB", "PostgreSQL"]
  let allTech := jsSetDedup (frontend ++ backend ++ databases)
  let isFullStack := true
  let techStack := frontend.take 1 ++ (if isFullStack then backend else []) ++ databases
  "📚 Array Merging & Manipulation:\nAll Technologies: " ++ String.intercalate ", " allTech ++
    "\nTech Stack: " ++ String.intercalate ", " techStack ++
    "\nUnique Count: " ++ toString allTech.length

/-- `Math.max(...nums)`; the demo never calls it on an empty list (where
JavaScript would give `-Infinity`). -/
def jsMax (l : List ℚ) : ℚ := l.foldl max (l.headD 0)

/-- `Math.min(...nums)`; same caveat as `jsMax`. -/
def jsMin (l : List ℚ) : ℚ := l.foldl min (l.headD 0)

/-- The variadic `calculateStats(operation, ...numbers)`:
`operations[operation]?.(numbers)` is `none` for an unknown operation (the
caller renders that as "Invalid operation" through `??`).  For `avg` on an
empty list JavaScript would produce `NaN`; in `ℚ` division by zero gives `0`;
the demo always passes five numbers. -/
def calculateStats (operation : String) (numbers : List ℚ) : Option ℚ :=
  if operation = "sum" then some (numbers.foldl (· + ·) 0)
  else if operation = "avg" then some ((numbers.foldl (· + ·) 0) / (numbers.length : ℚ))
  else if operation = "max" then some (jsMax numbers)
  else if operation = "min" then some (jsMin numbers)
  else none

/-- `functionArguments()`.  `sum` and `max` are rendered directly (through
the `?? "Invalid operation"` fallback); `avg` goes through `toFixed(2)` (its
fallback default is unreachable: "avg" is a known operation). -/
def functionArguments : String :=
  let numbers : List ℚ := [10, 25, 30, 15, 40]
  let sum := calculateStats "sum" numbers
  let avg := calculateStats "avg" numbers
  let max := calculateStats "max" numbers
  "🧮 Variadic Functions:\nNumbers: " ++ String.intercalate ", " (numbers.map qToString) ++
    "\nSum: " ++ ((sum.map qToString).getD "Invalid operation") ++
    "\nAverage: " ++ jsToFixed (avg.getD 0) 2 ++
    "\nMaximum: " ++ ((max.map qToString).getD "Invalid operation")

/-- Object spread of one field into an ordered field list: an existing key
keeps its position and takes the new value, a new key is appended. -/
def spreadInsert (obj : List (String × JsonV)) (kv : String × JsonV) : List (String × JsonV) :=
  if (obj.find? (fun x => x.1 = kv.1)).isSome then
    obj.map (fun x => if x.1 = kv.1 then kv else x)
  else obj ++ [kv]

/-- Object spread `\x7b ...obj, ...t \x7d` of a whole field list. -/
def spreadAll (obj t : List (String × JsonV)) : List (String × JsonV) :=
  t.foldl spreadInsert obj

/-- The local `createApiRequest(baseUrl, options)` of
`conditionalSpreading()`, with its hard-coded `isProduction = false` and
`hasAuth = true`. -/
def createApiRequest (baseUrl : String) (options : List (String × JsonV)) :
    List (String × JsonV) :=
  let isProduction := false
  let hasAuth := true
  let base := [("url", JsonV.str baseUrl), ("method", JsonV.str "GET")]
  let step1 := spreadAll base options
  -- `...(isProduction && \x7b timeout: 5000 \x7d)`
  let step2 := if isProduction then spreadAll step1 [("timeout", JsonV.num 5000)] else step1
  let optHeaders :=
    match options.find? (fun x => x.1 = "headers") with
    | some (_, .obj hs) => hs
    | _ => []
  -- `...(hasAuth && \x7b headers: \x7b ...options.headers, Authorization \x7d \x7d)`
  let step3 :=
    if hasAuth then
      spreadAll step2
        [("headers", JsonV.obj (spreadAll optHeaders [("Authorization", JsonV.str "Bearer token123")]))]
    else step2
  -- `...(options.cache !== false && \x7b cache: "default" \x7d)`
  let cacheOpt := ((options.find? (fun x => x.1 = "cache")).map (fun x => x.2)).getD .undefined
  match cacheOpt with
  | .bool false => step3
  | _ => spreadAll step3 [("cache", JsonV.str "default")]

/-- `conditionalSpreading()`. -/
def conditionalSpreading : String :=
  let request := createApiRequest "/api/users"
    [("method", .str "POST"), ("headers", .obj [("Content-Type", .str "application/json")])]
  "🔧 Conditional Spreading:\n" ++ jsonStringify 0 (.obj request)

/-- The literal string returned by `getSourceCode()`. -/
def getSourceCode : String :=
  "\n// Advanced Spread & Rest Patterns\n\n// 1. Object Composition\nconst enhancedUser = \x7b\n    ...baseUser,\n    ...additionalData,\n    permissions: [...permissions, 'admin']\n\x7d;\n\n// 2. Immutable Updates\nconst updatedUsers = users.map(user => \n    user.id === targetId \n        ? \x7b ...user, active: true, lastUpdated: Date.now() \x7d\n        : user\n);\n\n// 3. Array Deduplication\nconst uniqueItems = [...new Set([...array1, ...array2])];\n\n// 4. Variadic Functions\nconst calculateStats = (operation, ...numbers) => \x7b\n    return operations[operation]?.(numbers);\n\x7d;\n\n// 5. Conditional Spreading\nconst config = \x7b\n    ...baseConfig,\n    ...(isProduction && \x7b timeout: 5000 \x7d),\n    ...(hasAuth && \x7b headers: \x7b Authorization: token \x7d \x7d)\n\x7d;\n        "

/-- `run()`: the five examples joined by blank lines.  `nowIso` and `nowMs`
are the clock reads of `objectComposition` and `immutableUpdates`.  No method
assigns to an instance field. -/
def SpreadRestDemo.run (d : SpreadRestDemo) (nowIso : String) (nowMs : Int) :
    DemoResult × SpreadRestDemo :=
  let examples :=
    [ objectComposition d nowIso,
      immutableUpdates nowMs,
      arrayMerging,
      functionArguments,
      conditionalSpreading ]
  ({ output := String.intercalate "\n\n" examples, code := getSourceCode }, d)

end SpreadRest

/-! ## ArrowFunctionDemo (src module `arrowFunctions.js`) -/

namespace Arrow

/-- The constructor's `this.context` literal. -/
structure ArrowContext where
  name : String
  version : String
  features : List String
deriving Repr, DecidableEq

/-- The demo instance. -/
structure ArrowFunctionDemo where
  context : ArrowContext
deriving Repr, DecidableEq

/-- A fresh `new ArrowFunctionDemo()`. -/
def ArrowFunctionDemo.init : ArrowFunctionDemo :=
  { context :=
      { name := "Dashboard"
        version := "1.0"
        features := ["destructuring", "spread", "arrows"] } }

/-- The local `eventManager` object of `lexicalThisBinding()`. -/
structure EventManager where
  name : String
  events : List String
deriving Repr, DecidableEq

/-- `eventManager.addEventRegular`: a regular function, so `this` is the
object; it pushes the event and returns a message. -/
def addEventRegular (m : EventManager) (eventName : String) : String × EventManager :=
  let m2 := { m with events := m.events ++ [eventName] }
  (m2.name ++ " added: " ++ eventName, m2)

/-- `eventManager.processEvents`: the inner arrow function keeps the method's
`this`, so `this.name` is the manager's name. -/
def processEvents (m : EventManager) : List String :=
  m.events.map (fun event => m.name ++ ": " ++ event)

/-- `lexicalThisBinding()`. -/
def lexicalThisBinding : String :=
  let m0 : EventManager := { name := "EventManager", events := [] }
  let m1 := (addEventRegular m0 "click").2
  let m2 := (addEventRegular m1 "scroll").2
  let processed := processEvents m2
  "🎯 Lexical This Binding:\nEvents processed: " ++ String.intercalate ", " processed ++
    "\nArrow functions preserve outer 'this' context!"

/-- The higher-order `createValidator(rule)(value)`. -/
def createValidator (rule : Int → Bool) : Int → Bool := fun value => rule value

/-- `higherOrderFunctions()`: filter even, square, sum; then validate the
first five values. -/
def higherOrderFunctions : String :=
  let data : List Int := [1, 2, 3, 4, 5, 6, 7, 8, 9, 10]
  let pipeline := ((data.filter (fun n => n % 2 = 0)).map (fun n => n * n)).foldl (· + ·) 0
  let isPositive := createValidator (fun n => 0 < n)
  let isEven := createValidator (fun n => n % 2 = 0)
  let validationResults := (data.take 5).map (fun n => (n, isPositive n, isEven n))
  "🔧 Higher-Order Functions:\nPipeline Result: " ++ toString pipeline ++
    "\nValidation Results:\n" ++
    String.intercalate "\n"
      (validationResults.map (fun r =>
        toString r.1 ++ ": positive=" ++ jsBool r.2.1 ++ ", even=" ++ jsBool r.2.2))

/-- `compose(...fns)(value)`: `reduceRight`, so the rightmost function is
applied first. -/
def compose (fns : List (ℚ → ℚ)) : ℚ → ℚ := fun value => fns.foldr (fun fn acc => fn acc) value

/-- `addTax`. -/
def addTax (price : ℚ) : ℚ := price * (11 / 10)

/-- `addShipping`. -/
def addShipping (price : ℚ) : ℚ := price + 10

/-- `applyDiscount(discount)(price)`. -/
def applyDiscount (discount : ℚ) : ℚ → ℚ := fun price => price * (1 - discount)

/-- `Math.round` as the composition stage uses it (result back as a number).
In IEEE floats the pipeline gives 109.00000000000001 before rounding; the
rounded value is 109 exactly as over `ℚ`. -/
def mathRound (q : ℚ) : ℚ := (jsRound q : ℚ)

/-- Curried `multiply`. -/
def multiply (x : ℚ) : ℚ → ℚ := fun y => x * y

/-- `functionalComposition()`. -/
def functionalComposition : String :=
  let calculateFinalPrice := compose [mathRound, addShipping, addTax, applyDiscount (1 / 10)]
  let originalPrice : ℚ := 100
  let finalPrice := calculateFinalPrice originalPrice
  let double := multiply 2
  let triple := multiply 3
  "🎼 Functional Composition:\nOriginal Price: $" ++ qToString originalPrice ++
    "\nFinal Price: $" ++ qToString finalPrice ++
    "\nDouble 5: " ++ qToString (double 5) ++
    "\nTriple 4: " ++ qToString (triple 4)

/-- The simulated `fetchData(url)`: resolves to this string after a timer. -/
def fetchData (url : String) : String := "Data from " ++ url

/-- `asyncArrowPatterns()`: `Promise.all` over the three urls, then the
sequential loop over the first two, upper-cased. -/
def asyncArrowPatterns : String :=
  let urls := ["/api/users", "/api/posts", "/api/comments"]
  let results := urls.map fetchData
  let processedResults := (urls.take 2).map (fun u => (fetchData u).toUpper)
  "⚡ Async Arrow Patterns:\nParallel Results: " ++ toString results.length ++
    " items fetched\nSequential Results: " ++ String.intercalate ", " processedResults

/-- `examples.objectMethod` bound to an object: a regular function, so
`this.name` is the bound object's name (`this.name || "undefined"`; the
falsy fallback is unreachable for the bound "TestObject"). -/
def objectMethod (thisName : Option String) : String :=
  "Object method with proper 'this': " ++ thisName.getD "undefined"

/-- `new examples.regularConstructor(name)` followed by `.getName()`: the
arrow `getName` closes over the constructed object's `this.name`. -/
def regularConstructorGetName (name : String) : String := name

/-- `examples.withArguments`: an arrow function has no own `arguments`, so
`Array.from(arguments)` sees the ENCLOSING method's arguments -- and
`whenNotToUseArrows()` is called with none, whatever is passed to the arrow. -/
def withArguments (enclosingArgs : List String) : String :=
  String.intercalate ", " enclosingArgs

/-- `whenNotToUseArrows()`. -/
def whenNotToUseArrows : String :=
  let boundMethod := objectMethod (some "TestObject")
  let constructorResult := regularConstructorGetName "TestName"
  let argsResult := withArguments []
  "❌ When NOT to Use Arrows:\nObject Method: " ++ boundMethod ++
    "\nConstructor Result: " ++ constructorResult ++
    "\nArguments Example: " ++ argsResult

/-- The literal string returned by `getSourceCode()`. -/
def getSourceCode : String :=
  "\n// Advanced Arrow Function Patterns\n\n// 1. Lexical This Binding\nconst eventManager = \x7b\n    events: [],\n    processEvents: function() \x7b\n        // Arrow function preserves 'this' from outer scope\n        return this.events.map(event => \x60\x24\x7bthis.name\x7d: \x24\x7bevent\x7d\x60);\n    \x7d\n\x7d;\n\n// 2. Higher-Order Functions\nconst createValidator = (rule) => (value) => rule(value);\nconst isPositive = createValidator(n => n > 0);\n\n// 3. Functional Composition\nconst compose = (...fns) => (value) => \n    fns.reduceRight((acc, fn) => fn(acc), value);\n\nconst pipeline = compose(\n    Math.round,\n    addShipping,\n    addTax,\n    applyDiscount(0.1)\n);\n\n// 4. Async Arrow Functions\nconst fetchData = async (url) => \x7b\n    const response = await fetch(url);\n    return response.json();\n\x7d;\n\n// 5. Curried Functions\nconst multiply = x => y => x * y;\nconst double = multiply(2);\n\n// When NOT to use arrows:\n// - Object methods needing 'this'\n// - Constructors\n// - When you need 'arguments' object\n        "

/-- `run()`: the five examples joined by blank lines.  No method assigns to
an instance field (none even reads `this.context`). -/
def ArrowFunctionDemo.run (d : ArrowFunctionDemo) : DemoResult × ArrowFunctionDemo :=
  let examples :=
    [ lexicalThisBinding,
      higherOrderFunctions,
      functionalComposition,
      asyncArrowPatterns,
      whenNotToUseArrows ]
  ({ output := String.intercalate "\n\n" examples, code := getSourceCode }, d)

end Arrow

/-! ## AdvancedPatternsDemo (src module `advancedPatterns.js`) -/

namespace Advanced

/-- The demo instance.  `this.cache = new Map()` and `this.observers = []`
are set in the constructor and never read or written by any method. -/
structure AdvancedPatternsDemo where
  cache : List (String × String)
  observers : List String
deriving Repr, DecidableEq

/-- A fresh `new AdvancedPatternsDemo()`. -/
def AdvancedPatternsDemo.init : AdvancedPatternsDemo := { cache := [], observers := [] }

/-- The private state of the closure counter of `closuresAndPrivacy()`. -/
structure CounterState where
  count : Int
  history : List String
deriving Repr, DecidableEq

/-- `counter.increment(step)`. -/
def counterIncrement (s : CounterState) (step : Int) : Int × CounterState :=
  let s2 : CounterState := { count := s.count + step, history := s.history ++ ["+" ++ toString step] }
  (s2.count, s2)

/-- `counter.decrement(step)`. -/
def counterDecrement (s : CounterState) (step : Int) : Int × CounterState :=
  let s2 : CounterState := { count := s.count - step, history := s.history ++ ["-" ++ toString step] }
  (s2.count, s2)

/-- `closuresAndPrivacy()`: a counter created at 10, stepped +5, -2, +3. -/
def closuresAndPrivacy : String :=
  let s0 : CounterState := { count := 10, history := [] }
  let s1 := (counterIncrement s0 5).2
  let s2 := (counterDecrement s1 2).2
  let s3 := (counterIncrement s2 3).2
  "🔒 Closures & Privacy:\nCurrent Value: " ++ toString s3.count ++
    "\nHistory: " ++ String.intercalate ", " s3.history ++
    "\nPrivate state is completely encapsulated!"

/-- `cache.has(key)`/`cache.get(key)` of a memoization cache. -/
def memoLookup {β : Type} (cache : List (String × β)) (key : String) : Option β :=
  ((cache.find? (fun kv => kv.1 = key)).map (fun kv => kv.2))

/-- One call through the wrapper returned by `memoize(fn, keyGenerator)`:
`\x7b result: cache.get(key), cached: true \x7d` on a hit, otherwise the
computed `\x7b result, cached: false \x7d` with the cache extended
(`cache.set` appends to a `Map`; with per-key lookup, consing is
equivalent for every lookup). -/
def memoCall {α β : Type} (fn : α → β) (keyGenerator : α → String) (args : α)
    (cache : List (String × β)) : (β × Bool) × List (String × β) :=
  let key := keyGenerator args
  match memoLookup cache key with
  | some v => ((v, true), cache)
  | none =>
      let result := fn args
      ((result, false), (key, result) :: cache)

/-- The value stored by the memoized fibonacci: a number for `n <= 1`, the
string a JavaScript `object + object` addition produces for larger `n` (see
`fibMemo`). -/
inductive JVal where
  | num (n : Int)
  | str (s : String)
deriving Repr, DecidableEq

/-- Template-literal rendering of a `JVal`. -/
def jvalToString : JVal → String
  | .num n => toString n
  | .str s => s

/-- What `\x7b result, cached \x7d + \x7b result, cached \x7d` evaluates to
in JavaScript. -/
def objObjStr : String := "[object Object][object Object]"

/-- The default key generator `JSON.stringify(args)` on the one-argument
list `[n]`. -/
def fibKey (n : Nat) : String := "[" ++ toString n ++ "]"

/-- The outer memoized `fibonacci`.  For `n >= 2` the body builds a FRESH
inner wrapper `const fib = memoize(fibonacci)` whose empty cache always
misses, so `fib(n - 1)` is `\x7b result: fibonacci(n - 1), cached: false \x7d`
where `fibonacci(n - 1)` is itself a `\x7b result, cached \x7d` object (the
outer wrapper's return value, threading the outer cache).  The returned sum
`fib(n - 1).result + fib(n - 2).result` therefore adds two OBJECTS, which
JavaScript coerces to "[object Object][object Object]" -- the value the outer
cache stores for every `n >= 2`. -/
def fibMemo : Nat → List (String × JVal) → (JVal × Bool) × List (String × JVal)
  | 0, cache =>
      -- `if (n <= 1) return n`
      match memoLookup cache (fibKey 0) with
      | some v => ((v, true), cache)
      | none => ((.num 0, false), (fibKey 0, JVal.num 0) :: cache)
  | 1, cache =>
      match memoLookup cache (fibKey 1) with
      | some v => ((v, true), cache)
      | none => ((.num 1, false), (fibKey 1, JVal.num 1) :: cache)
  | m + 2, cache =>
      match memoLookup cache (fibKey (m + 2)) with
      | some v => ((v, true), cache)
      | none =>
          let r1 := fibMemo (m + 1) cache
          let r2 := fibMemo m r1.2
          ((.str objObjStr, false), (fibKey (m + 2), JVal.str objObjStr) :: r2.2)

/-- `processData`'s underlying function: double each item and sum. -/
def processDataFn (data : List Int) : Int :=
  (data.map (fun item => item * 2)).foldl (· + ·) 0

/-- `memoizationPattern()`: `fibonacci(10)` twice, then one `processData`. -/
def memoizationPattern : String :=
  let fib10First := fibMemo 10 []
  let fib10Second := fibMemo 10 fib10First.2
  -- `JSON.stringify([[1,2,3,4,5]])`: an injective key on the data, modelled
  -- with `toString`
  let dataResult := memoCall processDataFn (fun data => toString data) [1, 2, 3, 4, 5] []
  "⚡ Memoization Pattern:\nFibonacci(10) first call: " ++ jvalToString fib10First.1.1 ++
    " (cached: " ++ jsBool fib10First.1.2 ++
    ")\nFibonacci(10) second call: " ++ jvalToString fib10Second.1.1 ++
    " (cached: " ++ jsBool fib10Second.1.2 ++
    ")\nData processing result: " ++ toString dataResult.1.1

/-- Which demo callback a registered handler stands for (the closures passed
to `on`/`once` in `observerPattern()`). -/
inductive HAction where
  | loginMsg
  | logoutMsg
  | startupMsg
deriving Repr, DecidableEq

/-- A registered callback: `id` models closure identity (each `on` call
registers a distinct closure), `once` marks the self-unsubscribing wrapper
that `once` installs. -/
structure Handler where
  id : Nat
  once : Bool
  act : HAction
deriving Repr, DecidableEq

/-- The `EventEmitter` state plus the `messages` array the demo callbacks
push into. -/
structure Emitter where
  events : List (String × List Handler)
  messages : List String
deriving Repr, DecidableEq

/-- What the demo callback pushes into `messages`. -/
def msgOf (a : HAction) (data : Option String) : String :=
  match a with
  | .loginMsg => "User " ++ data.getD "undefined" ++ " logged in"
  | .logoutMsg => "User " ++ data.getD "undefined" ++ " logged out"
  | .startupMsg => "System started (one-time event)"

/-- `this.events.get(event) || []`. -/
def lookupHandlers (E : Emitter) (event : String) : List Handler :=
  (((E.events.find? (fun kv => kv.1 = event)).map (fun kv => kv.2))).getD []

/-- `on(event, callback)`: create the entry if missing, then push. -/
def emitterOn (E : Emitter) (event : String) (h : Handler) : Emitter :=
  if (E.events.find? (fun kv => kv.1 = event)).isSome then
    { E with events := E.events.map (fun kv => if kv.1 = event then (kv.1, kv.2 ++ [h]) else kv) }
  else
    { E with events := E.events ++ [(event, [h])] }

/-- Remove the first handler satisfying `p` (the `indexOf`/`splice` of the
unsubscribe closure). -/
def eraseFirst (p : Handler → Bool) : List Handler → List Handler
  | [] => []
  | x :: xs => if p x then xs else x :: eraseFirst p xs

/-- The event-map update the unsubscribe closure performs: splice the first
handler with the given id out of the event's callbacks array. -/
def eraseHandler (evs : List (String × List Handler)) (event : String) (j : Nat) :
    List (String × List Handler) :=
  evs.map (fun kv => if kv.1 = event then (kv.1, eraseFirst (fun g => g.id = j) kv.2) else kv)

/-- Run one callback during an emit: push its message; the wrapper installed
by `once` then unsubscribes itself (splicing itself out of the live
callbacks array). -/
def runHandler (E : Emitter) (event : String) (data : Option String) (h : Handler) : Emitter :=
  let E1 : Emitter := { E with messages := E.messages ++ [msgOf h.act data] }
  if h.once then
    { E1 with events := eraseHandler E1.events event h.id }
  else E1

/-- The `callbacks.map(callback => callback(data))` loop of `emit`, with
JavaScript `Array.prototype.map` semantics over the LIVE array: the length is
captured at the start, each index is read from the current array, and indices
no longer present (after a wrapper spliced itself out) are skipped.  Returns
the state and the ids of the callbacks invoked. -/
def emitLoop (event : String) (data : Option String) :
    Nat → Nat → Emitter → List Nat → Emitter × List Nat
  | 0, _, E, inv => (E, inv)
  | remaining + 1, k, E, inv =>
      match (lookupHandlers E event).get? k with
      | some h => emitLoop event data remaining (k + 1) (runHandler E event data h) (inv ++ [h.id])
      | none => emitLoop event data remaining (k + 1) E inv

/-- `emit(event, data)`. -/
def emit (E : Emitter) (event : String) (data : Option String) : Emitter × List Nat :=
  emitLoop event data (lookupHandlers E event).length 0 E []

/-- The scripted emitter of `observerPattern()`: two plain subscriptions, one
`once` subscription, then the four emits. -/
def observerEmitter : Emitter :=
  let E0 : Emitter := { events := [], messages := [] }
  let E1 := emitterOn E0 "user:login" { id := 0, once := false, act := .loginMsg }
  let E2 := emitterOn E1 "user:logout" { id := 1, once := false, act := .logoutMsg }
  let E3 := emitterOn E2 "system:startup" { id := 2, once := true, act := .startupMsg }
  let E4 := (emit E3 "system:startup" none).1
  let E5 := (emit E4 "user:login" (some "John")).1
  let E6 := (emit E5 "user:logout" (some "John")).1
  ((emit E6 "system:startup" none)).1

/-- The `messages` array after the script. -/
def observerMessages : List String := observerEmitter.messages

/-- `observerPattern()`. -/
def observerPattern : String :=
  "👁️ Observer Pattern:\nEvents fired: " ++ toString observerMessages.length ++
    "\nMessages:\n" ++ String.intercalate "\n" (observerMessages.map (fun msg => "• " ++ msg))

/-- A user record of the `UserModule` IIFE. -/
structure MUser where
  id : Nat
  name : String
  email : String
  createdAt : String
deriving Repr, DecidableEq

/-- The module's private state: `users` and `currentId`. -/
structure ModState where
  users : List MUser
  currentId : Nat
deriving Repr, DecidableEq

/-- The private `validateUser`: `user.name && user.email &&
user.email.includes("@")` (nonempty strings are truthy). -/
def validateUser (name email : String) : Bool :=
  name ≠ "" && email ≠ "" && jsIncludesChar email '@'

/-- `UserModule.create(userData)`: throws "Invalid user data" on a failed
validation, otherwise stamps `generateId()` (post-increment of `currentId`)
and `createdAt` and pushes the user. -/
def moduleCreate (st : ModState) (name email nowIso : String) :
    Except String (MUser × ModState) :=
  if ¬ validateUser name email then .error "Invalid user data"
  else
    let user : MUser := { id := st.currentId, name := name, email := email, createdAt := nowIso }
    .ok (user, { users := st.users ++ [user], currentId := st.currentId + 1 })

/-- `modulePattern()`: create John and Jane, then report. -/
def modulePattern (nowIso : String) : Except String String := do
  let st0 : ModState := { users := [], currentId := 1 }
  let (user1, st1) ← moduleCreate st0 "John" "john@example.com" nowIso
  let (user2, st2) ← moduleCreate st1 "Jane" "jane@example.com" nowIso
  pure ("🏗️ Module Pattern:\nCreated Users: " ++ toString st2.users.length ++
    "\nUser 1: " ++ user1.name ++ " (ID: " ++ toString user1.id ++ ")" ++
    "\nUser 2: " ++ user2.name ++ " (ID: " ++ toString user2.id ++ ")" ++
    "\nPrivate state is completely encapsulated!")

/-- A primitive JavaScript value stored on the proxy's raw target. -/
inductive JPrim where
  | num (n : Int)
  | str (s : String)
  | undefined
deriving Repr, DecidableEq

/-- Template-literal rendering of a `JPrim`. -/
def jprimToString : JPrim → String
  | .num n => toString n
  | .str s => s
  | .undefined => "undefined"

/-- The state a `createSmartObject` proxy closes over: the raw target object
and the `accessLog` array. -/
structure SmartState where
  target : List (String × JPrim)
  accessLog : List String
deriving Repr, DecidableEq

/-- `obj[prop]` on the raw target. -/
def targetGet (t : List (String × JPrim)) (prop : String) : JPrim :=
  ((t.find? (fun kv => kv.1 = prop)).map (fun kv => kv.2)).getD .undefined

/-- `obj[prop] = value` on the raw target. -/
def targetSet (t : List (String × JPrim)) (prop : String) (v : JPrim) :
    List (String × JPrim) :=
  if (t.find? (fun kv => kv.1 = prop)).isSome then
    t.map (fun kv => if kv.1 = prop then (prop, v) else kv)
  else t ++ [(prop, v)]

/-- The age validation `value < 0 || value > 150` of the `set` trap.  A
non-numeric value compares false on both sides in JavaScript (via `NaN`), so
only numbers can fail it; the demo only ever assigns a number. -/
def ageInvalid : JPrim → Bool
  | .num n => n < 0 || 150 < n
  | _ => false

/-- The proxy `set` trap: log, validate `age` and `email`, then store.
(`value.includes` on a non-string would itself be a TypeError; the demo
assigns a string email.) -/
def smartSet (st : SmartState) (prop : String) (v : JPrim) : Except String SmartState :=
  let st1 : SmartState :=
    { st with accessLog := st.accessLog ++ ["SET: " ++ prop ++ " = " ++ jprimToString v] }
  if prop == "age" && ageInvalid v then .error "Invalid age value"
  else if prop == "email" then
    match v with
    | .str s =>
        if ¬ jsIncludesChar s '@' then Except.error "Invalid email format"
        else .ok { st1 with target := targetSet st1.target prop v }
    | _ => .error "TypeError: value.includes is not a function"
  else .ok { st1 with target := targetSet st1.target prop v }

/-- What the proxy `get` trap hands back: a plain value, or the dynamic
`is...` checker function. -/
inductive GetResult where
  | val (v : JPrim)
  | isChecker (property : String)
deriving Repr, DecidableEq

/-- The proxy `get` trap: log; a property `is` + `X` (longer than two
characters) yields the dynamic checker for `x`; anything else reads the raw
target. -/
def smartGet (st : SmartState) (prop : String) : GetResult × SmartState :=
  let st1 : SmartState := { st with accessLog := st.accessLog ++ ["GET: " ++ prop] }
  if jsStartsWith prop "is" && prop.length > 2 then
    (.isChecker (jsToLowerCase (jsSliceFrom prop 2)), st1)
  else
    (.val (targetGet st1.target prop), st1)

/-- The proxy `has` trap (`prop in smartUser`): log, then `prop in obj`. -/
def smartHas (st : SmartState) (prop : String) : Bool × SmartState :=
  let st1 : SmartState := { st with accessLog := st.accessLog ++ ["HAS: " ++ prop] }
  ((st1.target.find? (fun kv => kv.1 = prop)).isSome, st1)

/-- Calling the checker returned for `is` + `X`: `obj[property] !==
undefined` on the RAW target (not through the proxy, so no log entry). -/
def runChecker (st : SmartState) (property : String) : Bool :=
  match targetGet st.target property with
  | .undefined => false
  | _ => true

/-- The TypeError `log.slice(-3)` raises when `log` is undefined. -/
def accessLogTypeError : String :=
  "TypeError: Cannot read properties of undefined (reading 'slice')"

/-- `proxyPattern()`: build the smart object, set three properties, probe
`in`, the dynamic `isName()`, then read `smartUser.accessLog`.  That read
goes through the `get` trap, which returns `obj["accessLog"]` -- a property
never assigned on the raw target (the log lives in a closure variable; the
`ownKeys`/`getOwnPropertyDescriptor` traps that virtualize it are not
consulted by property reads).  So `log` is `undefined` and the following
`log.slice(-3)` throws, which makes `run()` reject. -/
def proxyPattern : Except String String := do
  let st0 : SmartState := { target := [], accessLog := [] }
  let st1 ← smartSet st0 "name" (.str "John")
  let st2 ← smartSet st1 "age" (.num 30)
  let st3 ← smartSet st2 "email" (.str "john@example.com")
  let (_hasName, st4) := smartHas st3 "name"
  let (isNameGet, st5) := smartGet st4 "isName"
  let _isName :=
    match isNameGet with
    | .isChecker property => runChecker st5 property
    | .val _ => false
  let (logGet, _st6) := smartGet st5 "accessLog"
  match logGet with
  | .val JPrim.undefined => Except.error accessLogTypeError
  | _ =>
      -- not reachable: `accessLog` is never assigned on the raw target in
      -- this script, so the read above always yields `undefined`
      Except.error accessLogTypeError

/-- The literal string returned by `getSourceCode()`. -/
def getSourceCode : String :=
  "\n// Advanced JavaScript Patterns\n\n// 1. Closures for Privacy\nconst createCounter = (initialValue = 0) => \x7b\n    let count = initialValue; // Private variable\n    let history = [];\n    \n    return \x7b\n        increment: (step = 1) => \x7b\n            count += step;\n            history.push(\x60+\x24\x7bstep\x7d\x60);\n            return count;\n        \x7d,\n        getValue: () => count,\n        getHistory: () => [...history] // Return copy\n    \x7d;\n\x7d;\n\n// 2. Memoization Pattern\nconst memoize = (fn, keyGenerator = (...args) => JSON.stringify(args)) => \x7b\n    const cache = new Map();\n    return (...args) => \x7b\n        const key = keyGenerator(...args);\n        if (cache.has(key)) return cache.get(key);\n        const result = fn(...args);\n        cache.set(key, result);\n        return result;\n    \x7d;\n\x7d;\n\n// 3. Observer Pattern\nclass EventEmitter \x7b\n    constructor() \x7b this.events = new Map(); \x7d\n    \n    on(event, callback) \x7b\n        if (!this.events.has(event)) this.events.set(event, []);\n        this.events.get(event).push(callback);\n    \x7d\n    \n    emit(event, data) \x7b\n        const callbacks = this.events.get(event) || [];\n        callbacks.forEach(callback => callback(data));\n    \x7d\n\x7d\n\n// 4. Module Pattern\nconst UserModule = (() => \x7b\n    let users = []; // Private\n    \n    return \x7b\n        create(userData) \x7b /* public method */ \x7d,\n        findById(id) \x7b /* public method */ \x7d\n    \x7d;\n\x7d)();\n\n// 5. Proxy Pattern\nconst smartObject = new Proxy(target, \x7b\n    get(obj, prop) \x7b /* intercept property access */ \x7d,\n    set(obj, prop, value) \x7b /* intercept property setting */ \x7d\n\x7d);\n        "

/-- `run()`: the five example strings are all computed for the examples
array; `proxyPattern` throws while that array literal is being evaluated, so
`run()` rejects with its TypeError.  No method assigns to `this.cache` or
`this.observers`, so the instance is returned unchanged either way. -/
def AdvancedPatternsDemo.run (d : AdvancedPatternsDemo) (nowIso : String) :
    (Except String DemoResult) × AdvancedPatternsDemo :=
  let result : Except String String := do
    let e1 := closuresAndPrivacy
    let e2 := memoizationPattern
    let e3 := observerPattern
    let e4 ← modulePattern nowIso
    let e5 ← proxyPattern
    pure (String.intercalate "\n\n" [e1, e2, e3, e4, e5])
  match result with
  | .ok output => (.ok { output := output, code := getSourceCode }, d)
  | .error e => (.error e, d)

end Advanced

/-! ## PerformanceDemo (src module `performance.js`) -/

namespace Perf

/-- One record of the constructor's `this.testData` (10000 records with
random scores in the page; the records are threaded as a parameter here). -/
structure URec where
  id : Nat
  name : String
  score : ℚ
  active : Bool
deriving Repr, DecidableEq

instance : Inhabited URec := ⟨{ id := 0, name := "", score := 0, active := false }⟩

/-- The demo instance: its only constructor-initialized field. -/
structure PerformanceDemo where
  testData : List URec
deriving Repr, DecidableEq

/-- One event seen by a debounced/throttled wrapper: an invocation of the
wrapper, or the wait/limit elapsing with no further invocation. -/
inductive DebEvent where
  | call
  | elapse
deriving Repr, DecidableEq

/-- The closure state of a `debounce(func, wait)` wrapper (`let timeout`),
plus how many times `func` has executed. -/
structure DebState where
  pending : Bool
  execs : Nat
deriving Repr, DecidableEq

/-- One step of the debounce wrapper: an invocation clears the pending timer
(`clearTimeout(timeout)`) and schedules a fresh one, so at most one timer is
ever pending; when the wait elapses uninterrupted, the pending timer fires
`func` once. -/
def debStep (s : DebState) : DebEvent → DebState
  | .call => { s with pending := true }
  | .elapse => if s.pending then { pending := false, execs := s.execs + 1 } else s

/-- A debounce wrapper run over a trace of events. -/
def debRun (s : DebState) (evts : List DebEvent) : DebState := evts.foldl debStep s

/-- The closure state of a `throttle(func, limit)` wrapper. -/
structure ThrState where
  inThrottle : Bool
  execs : Nat
deriving Repr, DecidableEq

/-- One step of the throttle wrapper: a call outside the throttle window runs
`func` immediately and opens the window; the window closing is the elapse. -/
def thrStep (s : ThrState) : DebEvent → ThrState
  | .call => if s.inThrottle then s else { inThrottle := true, execs := s.execs + 1 }
  | .elapse => { s with inThrottle := false }

/-- A throttle wrapper run over a trace of events. -/
def thrRun (s : ThrState) (evts : List DebEvent) : ThrState := evts.foldl thrStep s

/-- The simulation of `debouncingThrottling()`: 50 synchronous rapid calls
(the `rapidCalls.forEach` loop runs to completion before any timer callback
can fire), then the 150ms `await` during which the pending timers fire. -/
def demoTrace : List DebEvent := List.replicate 50 .call ++ [.elapse]

/-- `debouncingThrottling()`: each rapid call invokes the direct, debounced
and throttled operations once. -/
def debouncingThrottling : String :=
  let directCount := demoTrace.count DebEvent.call
  let debounceCount := (debRun { pending := false, execs := 0 } demoTrace).execs
  let throttleCount := (thrRun { inThrottle := false, execs := 0 } demoTrace).execs
  "⚡ Debouncing & Throttling:\nDirect calls: " ++ toString directCount ++
    "\nDebounced calls: " ++ toString debounceCount ++
    "\nThrottled calls: " ++ toString throttleCount ++
    "\nPerformance improvement: " ++
    toString (jsRound ((1 - (debounceCount : ℚ) / (directCount : ℚ)) * 100)) ++ "%"

/-- The eager pipeline of `lazyEvaluation()`: filter active, double the
scores, slice the first five. -/
def eagerTop5 (l : List URec) : List ℚ :=
  ((l.filter (fun user => user.active)).map (fun user => user.score * 2)).take 5

/-- The lazy generator pipeline of `lazyEvaluation()`: pull mapped-filtered
elements one by one until five are collected. -/
def lazyTop5 : List URec → Nat → List ℚ
  | [], _ => []
  | _ :: _, 0 => []
  | u :: us, n + 1 =>
      if u.active then (u.score * 2) :: lazyTop5 us n else lazyTop5 us (n + 1)

/-- `lazyEvaluation()`.  The page compares `JSON.stringify` of the two-element
slices; number serialization is injective, so this is list equality. -/
def lazyEvaluation (d : PerformanceDemo) (eagerTime lazyTime : ℚ) : String :=
  let eagerResult := eagerTop5 d.testData
  let lazyResult := lazyTop5 d.testData 5
  let resultsMatch := decide (eagerResult.take 2 = lazyResult.take 2)
  "🔄 Lazy Evaluation:\nEager time: " ++ jsToFixed eagerTime 3 ++
    "ms\nLazy time: " ++ jsToFixed lazyTime 3 ++
    "ms\nPerformance gain: " ++ toString (jsRound (((eagerTime - lazyTime) / eagerTime) * 100)) ++
    "%\nResults match: " ++ jsBool resultsMatch

/-- An object of the `ObjectPool`. -/
structure PoolObj where
  id : Nat
  name : String
  score : ℚ
  active : Bool
deriving Repr, DecidableEq

/-- The pool's `createFn`. -/
def poolCreate : PoolObj := { id := 0, name := "", score := 0, active := false }

/-- The pool's `resetFn`: it zeroes every field, so a released object equals
a fresh one. -/
def poolReset (_obj : PoolObj) : PoolObj := poolCreate

/-- `pool.acquire()`: pop the last pooled object, or create one. -/
def poolAcquire (pool : List PoolObj) : PoolObj × List PoolObj :=
  match pool.getLast? with
  | some obj => (obj, pool.dropLast)
  | none => (poolCreate, pool)

/-- `memoryOptimization()`: pool of 10, acquire and retag 5, release them.
(The WeakMap-cached `processUser` is defined in the source but never
called.) -/
def memoryOptimization : String :=
  let pool0 := List.replicate 10 poolCreate
  let step := (List.range 5).foldl
    (fun (acc : List PoolObj × List PoolObj) i =>
      let (obj, pool') := poolAcquire acc.2
      (acc.1 ++ [{ obj with id := i, name := "Pooled User " ++ toString i }], pool'))
    ([], pool0)
  let pooledObjects := step.1
  let poolAfter := pooledObjects.foldl (fun pool obj => pool ++ [poolReset obj]) step.2
  "💾 Memory Optimization:\nObject Pool Size: " ++ toString poolAfter.length ++
    "\nWeakMap Cache: Automatic garbage collection" ++
    "\nMemory-efficient patterns implemented" ++
    "\nPool reuse: " ++ toString pooledObjects.length ++ " objects recycled"

/-- The loop of the local `binarySearch(arr, target)` of
`algorithmOptimization()`.  `mid` is `Math.floor((left + right) / 2)`, i.e.
floor division; in every reachable state both bounds are nonnegative and in
range, so the defaulted indexing never pads. -/
def bsAux (arr : List URec) (target : ℚ) (left right : Int) : Option URec :=
  if left ≤ right then
    let mid : Int := (left + right) / 2
    let midRec := arr.getD mid.toNat default
    if target ≤ midRec.score then
      if mid = 0 ∨ (arr.getD (mid - 1).toNat default).score < target then
        some midRec
      else
        bsAux arr target left (mid - 1)
    else
      bsAux arr target (mid + 1) right
  else none
termination_by (right + 1 - left).toNat
decreasing_by
  · omega
  · omega

/-- `binarySearch(arr, target)`: the loop started at `left = 0`,
`right = arr.length - 1`. -/
def binarySearch (arr : List URec) (target : ℚ) : Option URec :=
  bsAux arr target 0 ((arr.length : Int) - 1)

/-- `sortedData`: `[...this.testData].sort((a, b) => a.score - b.score)` (a
stable non-decreasing sort of a copy). -/
def sortByScore (l : List URec) : List URec :=
  l.mergeSort (fun a b => a.score ≤ b.score)

/-- One step of the `scoreMap` bucketing: push the user into the bucket of
`Math.floor(user.score)`. -/
def scoreMapInsert (m : List (Int × List URec)) (user : URec) : List (Int × List URec) :=
  let key : Int := ⌊user.score⌋
  if (m.find? (fun kv => kv.1 = key)).isSome then
    m.map (fun kv => if kv.1 = key then (kv.1, kv.2 ++ [user]) else kv)
  else m ++ [(key, [user])]

/-- `algorithmOptimization()`: the three searches are computed (their results
are unused by the output, which reports only the timings). -/
def algorithmOptimization (d : PerformanceDemo) (linearTime binaryTime hashTime : ℚ) : String :=
  let sortedData := sortByScore d.testData
  let targetScore : ℚ := 50
  let _linearResult := sortedData.find? (fun user => targetScore ≤ user.score)
  let _binaryResult := binarySearch sortedData targetScore
  let scoreMap := sortedData.foldl scoreMapInsert []
  let _hashResult := (scoreMap.find? (fun kv => kv.1 = ⌊targetScore⌋)).map (fun kv => kv.2.headD default)
  "🚀 Algorithm Optimization:\nLinear Search: " ++ jsToFixed linearTime 4 ++
    "ms\nBinary Search: " ++ jsToFixed binaryTime 4 ++
    "ms\nHash Lookup: " ++ jsToFixed hashTime 4 ++
    "ms\nBinary vs Linear: " ++ toString (jsRound (linearTime / binaryTime)) ++
    "x faster\nHash Map: " ++ toString (jsRound (linearTime / hashTime)) ++ "x faster"

/-- The batch slicing of `asyncOptimization()`: slices of 100, each mapped to
doubled scores. -/
def chunkScores : List URec → List (List ℚ)
  | [] => []
  | u :: us =>
      (((u :: us).take 100).map (fun user => user.score * 2)) :: chunkScores ((u :: us).drop 100)
termination_by l => l.length
decreasing_by simp; omega

/-- The simulated `asyncOperation(delay, value)`: resolves to `value`. -/
def asyncOperationVal (value : String) : String := value

/-- `asyncOptimization()`: sequential and parallel runs of the same three
operations (their values are unused by the output), then batch processing. -/
def asyncOptimization (d : PerformanceDemo) (sequentialTime parallelTime batchTime : ℚ) : String :=
  let _seq := [asyncOperationVal "A", asyncOperationVal "B", asyncOperationVal "C"]
  let _par := [asyncOperationVal "A", asyncOperationVal "B", asyncOperationVal "C"]
  let batches := chunkScores d.testData
  "⚡ Async Optimization:\nSequential: " ++ jsToFixed sequentialTime 2 ++
    "ms\nParallel: " ++ jsToFixed parallelTime 2 ++
    "ms\nBatch Processing: " ++ jsToFixed batchTime 2 ++
    "ms\nParallel speedup: " ++ toString (jsRound (sequentialTime / parallelTime)) ++
    "x faster\nBatches processed: " ++ toString batches.length

/-- The `performance.now()` interval reads of one `run()`, threaded in. -/
structure PerfTimes where
  eagerTime : ℚ
  lazyTime : ℚ
  linearTime : ℚ
  binaryTime : ℚ
  hashTime : ℚ
  sequentialTime : ℚ
  parallelTime : ℚ
  batchTime : ℚ
deriving Repr, DecidableEq

/-- The literal string returned by `getSourceCode()`. -/
def getSourceCode : String :=
  "\n// Performance Optimization Patterns\n\n// 1. Debouncing & Throttling\nconst debounce = (func, wait) => \x7b\n    let timeout;\n    return (...args) => \x7b\n        clearTimeout(timeout);\n        timeout = setTimeout(() => func.apply(this, args), wait);\n    \x7d;\n\x7d;\n\nconst throttle = (func, limit) => \x7b\n    let inThrottle;\n    return (...args) => \x7b\n        if (!inThrottle) \x7b\n            func.apply(this, args);\n            inThrottle = true;\n            setTimeout(() => inThrottle = false, limit);\n        \x7d\n    \x7d;\n\x7d;\n\n// 2. Lazy Evaluation\nfunction* lazyMap(iterable, mapper) \x7b\n    for (const item of iterable) \x7b\n        yield mapper(item);\n    \x7d\n\x7d\n\nfunction* lazyFilter(iterable, predicate) \x7b\n    for (const item of iterable) \x7b\n        if (predicate(item)) yield item;\n    \x7d\n\x7d\n\n// 3. Object Pooling\nclass ObjectPool \x7b\n    constructor(createFn, resetFn, initialSize = 10) \x7b\n        this.createFn = createFn;\n        this.resetFn = resetFn;\n        this.pool = [];\n        for (let i = 0; i < initialSize; i++) \x7b\n            this.pool.push(this.createFn());\n        \x7d\n    \x7d\n    \n    acquire() \x7b\n        return this.pool.length > 0 ? this.pool.pop() : this.createFn();\n    \x7d\n    \n    release(obj) \x7b\n        this.resetFn(obj);\n        this.pool.push(obj);\n    \x7d\n\x7d\n\n// 4. Binary Search Optimization\nconst binarySearch = (arr, target) => \x7b\n    let left = 0, right = arr.length - 1;\n    while (left <= right) \x7b\n        const mid = Math.floor((left + right) / 2);\n        if (arr[mid] === target) return mid;\n        arr[mid] < target ? left = mid + 1 : right = mid - 1;\n    \x7d\n    return -1;\n\x7d;\n\n// 5. Parallel Async Processing\nconst results = await Promise.all([\n    asyncOperation1(),\n    asyncOperation2(),\n    asyncOperation3()\n]);\n        "

/-- `run()`: the five examples joined by blank lines.  No method assigns to
`this.testData` (`algorithmOptimization` sorts a spread COPY). -/
def PerformanceDemo.run (d : PerformanceDemo) (t : PerfTimes) : DemoResult × PerformanceDemo :=
  let examples :=
    [ debouncingThrottling,
      lazyEvaluation d t.eagerTime t.lazyTime,
      memoryOptimization,
      algorithmOptimization d t.linearTime t.binaryTime t.hashTime,
      asyncOptimization d t.sequentialTime t.parallelTime t.batchTime ]
  ({ output := String.intercalate "\n\n" examples, code := getSourceCode }, d)

end Perf

/-! ## TemplateLiteralDemo (src module `templateLiterals.js`) -/

namespace Template

/-- One project of `this.userData.projects`. -/
structure TProject where
  name : String
  status : String
  duration : String
deriving Repr, DecidableEq

/-- The constructor's `this.userData` shape. -/
structure TUserData where
  name : String
  role : String
  experience : Int
  skills : List String
  projects : List TProject
deriving Repr, DecidableEq

/-- The demo instance: its only constructor-initialized field. -/
structure TemplateLiteralDemo where
  userData : TUserData
deriving Repr, DecidableEq

/-- A fresh `new TemplateLiteralDemo()`: the constructor's literal. -/
def TemplateLiteralDemo.init : TemplateLiteralDemo :=
  { userData :=
      { name := "John Doe"
        role := "Senior Developer"
        experience := 5
        skills := ["JavaScript", "React", "Node.js"]
        projects :=
          [ { name := "E-commerce Platform", status := "completed", duration := "6 months" },
            { name := "Analytics Dashboard", status := "in-progress", duration := "3 months" } ] } }

/-- `basicTemplating()`: the trimmed profile template over the destructured
`userData`. -/
def basicTemplating (u : TUserData) : String :=
  let profile := jsTrim
    ("\n👤 Developer Profile:\nName: " ++ u.name ++
      "\nRole: " ++ u.role ++
      "\nExperience: " ++ toString u.experience ++ " year" ++
        (if u.experience ≠ 1 then "s" else "") ++
      "\nSkills: " ++ String.intercalate " • " u.skills ++
      "\nSkill Count: " ++ toString u.skills.length ++
      "\nSenior Level: " ++ (if 5 ≤ u.experience then "✅ Yes" else "❌ No") ++
      "\n        ")
  "📝 Basic Template Literals:\n" ++ profile

/-- The `highlight` tag of `taggedTemplates()`: reduce over the string parts,
wrapping each present value in `<mark>` (a missing -- or otherwise falsy --
value contributes nothing; here the values are the nonempty name and role). -/
def highlightTag (strings values : List String) : String :=
  (List.range strings.length).foldl
    (fun result i =>
      result ++ strings.getD i "" ++
        (match values.get? i with
         | some v => if v ≠ "" then "<mark>" ++ v ++ "</mark>" else ""
         | none => ""))
    ""

/-- `value.replace(/'/g, "''")` of the `query` tag. -/
def sqlEscapeQuotes (v : String) : String :=
  String.mk (v.data.foldr (fun c acc => if c = '\'' then '\'' :: '\'' :: acc else c :: acc) [])

/-- The `query` tag of `taggedTemplates()`: quote-escape and wrap each string
value (the demo passes only strings), then reduce with `sanitized[i] || ""`. -/
def queryTag (strings values : List String) : String :=
  let sanitized := values.map (fun value => "'" ++ sqlEscapeQuotes value ++ "'")
  (List.range strings.length).foldl
    (fun result i => result ++ strings.getD i "" ++ sanitized.getD i "")
    ""

/-- `taggedTemplates()`: the two tagged template literals over name and role. -/
def taggedTemplates (u : TUserData) : String :=
  let highlighted := highlightTag ["Developer ", " works as ", ""] [u.name, u.role]
  let sqlQuery :=
    queryTag ["SELECT * FROM users WHERE name = ", " AND role = ", ""] [u.name, u.role]
  "🏷️ Tagged Template Literals:\nHighlighted: " ++ highlighted ++
    "\nSQL Query: " ++ sqlQuery

/-- One project block of the `multilineTemplates()` report. -/
def projectBlock (p : TProject) : String :=
  "║ • " ++ jsPadEnd p.name 32 ++ " ║\n║   Status: " ++ jsPadEnd p.status 26 ++
    " ║\n║   Duration: " ++ jsPadEnd p.duration 24 ++ " ║"

/-- `multilineTemplates()`: the boxed project report. -/
def multilineTemplates (u : TUserData) : String :=
  let projectReport := jsTrim
    ("\n╔══════════════════════════════════════╗" ++
      "\n║           PROJECT REPORT             ║" ++
      "\n╠══════════════════════════════════════╣" ++
      "\n║ Developer: " ++ jsPadEnd u.name 25 ++ " ║" ++
      "\n║ Total Projects: " ++ jsPadEnd (toString u.projects.length) 20 ++ " ║" ++
      "\n╠══════════════════════════════════════╣" ++
      "\n" ++ String.intercalate "\n" (u.projects.map projectBlock) ++
      "\n╚══════════════════════════════════════╝" ++
      "\n        ")
  "📊 Multiline Templates:\n" ++ projectReport

/-- `conditionalTemplating()`: the trimmed status report with its nested
ternaries and conditional lines. -/
def conditionalTemplating (u : TUserData) : String :=
  let completedProjects := (u.projects.filter (fun p => p.status = "completed")).length
  let inProgressProjects := (u.projects.filter (fun p => p.status = "in-progress")).length
  let statusReport := jsTrim
    ("\n🎯 Developer Status Report:\n" ++ u.name ++ " is a " ++
      (if 5 ≤ u.experience then "Senior"
       else if 2 ≤ u.experience then "Mid-level" else "Junior") ++ " developer" ++
      "\n" ++ (if 3 < u.skills.length then "🌟 Highly skilled" else "📚 Growing skillset") ++
      " (" ++ toString u.skills.length ++ " skills)" ++
      "\n" ++ (if 0 < completedProjects then
        "✅ " ++ toString completedProjects ++ " completed project" ++
          (if completedProjects ≠ 1 then "s" else "")
        else "") ++
      "\n" ++ (if 0 < inProgressProjects then
        "🚧 " ++ toString inProgressProjects ++ " project" ++
          (if inProgressProjects ≠ 1 then "s" else "") ++ " in progress"
        else "") ++
      "\n" ++ (if 5 ≤ u.experience ∧ 3 < u.skills.length then
        "🏆 Ready for leadership roles!" else "") ++
      "\n        ")
  "🔀 Conditional Templating:\n" ++ statusReport

/-- The factory's `welcome` template. -/
def welcomeTemplate (name role : String) : String :=
  jsTrim ("\nWelcome " ++ name ++ "! 🎉\nWe're excited to have you join us as a " ++ role ++
    ".\nYour journey starts now!\n                ")

/-- The factory's `project` template. -/
def projectTemplate (name projectName status : String) : String :=
  jsTrim ("\nHi " ++ name ++ ",\nProject Update: \"" ++ projectName ++
    "\"\nStatus: " ++ jsToUpperCase status ++
    "\n" ++ (if status = "completed" then "🎉 Congratulations!" else "⏳ Keep up the great work!") ++
    "\n                ")

/-- The factory's `reminder` template (defined in the source, never invoked
by the demo; the factory's "Template not found" fallback is likewise never
reached, as only the known "welcome" and "project" types are requested). -/
def reminderTemplate (name task deadline : String) : String :=
  jsTrim ("\nReminder for " ++ name ++ ":\nTask: " ++ task ++ "\nDeadline: " ++ deadline ++
    "\n⚠️ Don't forget to complete this task!\n                ")

/-- `templateFunctions()`: the welcome and project emails over `userData`
(`projects[0]` exists here; reading a missing first project would be a
TypeError in JavaScript). -/
def templateFunctions (u : TUserData) : String :=
  let projects0 := (u.projects.get? 0).getD { name := "", status := "", duration := "" }
  let welcome := welcomeTemplate u.name u.role
  let project := projectTemplate u.name projects0.name projects0.status
  "📧 Template Functions:\nWelcome Email:\n" ++ welcome ++
    "\n\nProject Email:\n" ++ project

/-- `generatePersonalizedTemplate(name)` (reached through `updatePreview`,
not through `run()`); `timeStr` is the `new Date().toLocaleTimeString()` read
at call time. -/
def generatePersonalizedTemplate (name : String) (timeStr : String) : String :=
  if jsTrim name = "" then "Enter a name to see personalized template..."
  else
    jsTrim ("\n🎨 Personalized Template for: " ++ name ++
      "\n\nHello " ++ name ++ "! 👋" ++
      "\n" ++ (if 10 < name.length then "What a beautiful long name!" else "Nice to meet you!") ++
      "\n" ++ (if jsIncludesStr (jsToLowerCase name) "john" then "Great name choice! 😊" else "") ++
      "\n" ++ (if 1 < (name.splitOn " ").length then
        "I see you have " ++ toString (name.splitOn " ").length ++ " names." else "") ++
      "\n\nGenerated at: " ++ timeStr ++
      "\n        ")

/-- The literal string returned by `getSourceCode()`. -/
def getSourceCode : String :=
  "\n// Advanced Template Literal Patterns\n\n// 1. Basic Templates with Expressions\nconst profile = \x60\nName: $\x7bname\x7d\nExperience: $\x7bexperience\x7d year$\x7bexperience !== 1 ? 's' : ''\x7d\nSenior: $\x7bexperience >= 5 ? '✅ Yes' : '❌ No'\x7d\n\x60;\n\n// 2. Tagged Template Literals\nconst highlight = (strings, ...values) => \x7b\n    return strings.reduce((result, string, i) => \x7b\n        const value = values[i] ? \x60<mark>$\x7bvalues[i]\x7d</mark>\x60 : '';\n        return result + string + value;\n    \x7d, '');\n\x7d;\n\nconst highlighted = highlight\x60User $\x7bname\x7d has $\x7brole\x7d role\x60;\n\n// 3. SQL Query Builder\nconst query = (strings, ...values) => \x7b\n    const sanitized = values.map(v => \n        typeof v === 'string' ? \x60'$\x7bv.replace(/'/g, \"''\")\x7d'\x60 : v\n    );\n    return strings.reduce((result, string, i) => \n        result + string + (sanitized[i] || ''), ''\n    );\n\x7d;\n\n// 4. Conditional Templates\nconst status = \x60\n$\x7bname\x7d is $\x7bexperience >= 5 ? 'Senior' : 'Junior'\x7d\n$\x7bskills.length > 3 ? '🌟 Highly skilled' : '📚 Growing'\x7d\n$\x7bcompletedProjects > 0 ? \x60✅ $\x7bcompletedProjects\x7d completed\x60 : ''\x7d\n\x60;\n\n// 5. Template Factory Functions\nconst createTemplate = (type) => (name, data) => \x60\nTemplate for $\x7bname\x7d: $\x7bdata\x7d\n\x60;\n        "

/-- `run()`: the five examples joined by blank lines.  Every method only
destructures (reads) `this.userData`; none assigns to it, so the instance is
returned unchanged. -/
def TemplateLiteralDemo.run (demo : TemplateLiteralDemo) : DemoResult × TemplateLiteralDemo :=
  let u := demo.userData
  let examples :=
    [ basicTemplating u,
      taggedTemplates u,
      multilineTemplates u,
      conditionalTemplating u,
      templateFunctions u ]
  ({ output := String.intercalate "\n\n" examples, code := getSourceCode }, demo)

end Template

/-! ## FeatureDashboard (src `app.js` / `script.js`) -/

namespace Dashboard

/-- One registered demo instance of the `this.demos` map. -/
inductive DemoInst where
  | destructuring (d : Destructuring.DestructuringDemo)
  | spreadRest (d : SpreadRest.SpreadRestDemo)
  | arrowFunctions (d : Arrow.ArrowFunctionDemo)
  | templateLiterals (d : Template.TemplateLiteralDemo)
  | advancedPatterns (d : Advanced.AdvancedPatternsDemo)
  | performance (d : Perf.PerformanceDemo)
deriving Repr, DecidableEq

/-- The browser primitives a dashboard run reads: the clock values, the
random `testData` of the performance demo, and its timing reads. -/
structure DashEnv where
  nowIso : String
  nowMs : Int
  perfData : List Perf.URec
  perfTimes : Perf.PerfTimes

/-- `demo.run()` for a registered instance: the demo's own `run`, wrapped in
the dashboard's view (a resolved value or a caught rejection), together with
the instance afterwards. -/
def DemoInst.run : DemoInst → DashEnv → (Except String DemoResult) × DemoInst
  | .destructuring d, _ =>
      let (r, d2) := d.run
      (.ok r, .destructuring d2)
  | .spreadRest d, env =>
      let (r, d2) := d.run env.nowIso env.nowMs
      (.ok r, .spreadRest d2)
  | .arrowFunctions d, _ =>
      let (r, d2) := d.run
      (.ok r, .arrowFunctions d2)
  | .templateLiterals d, _ =>
      let (r, d2) := d.run
      (.ok r, .templateLiterals d2)
  | .advancedPatterns d, env =>
      let (r, d2) := d.run env.nowIso
      (r, .advancedPatterns d2)
  | .performance d, env =>
      let (r, d2) := d.run env.perfTimes
      (.ok r, .performance d2)

/-- The keys of the constructor's `this.demos` map literal, in order. -/
def demoKeys : List String :=
  ["destructuring", "spread-rest", "arrow-functions", "template-literals",
    "advanced-patterns", "performance"]

/-- The constructor's `this.demos` map literal (the performance demo's random
`testData` comes from the environment). -/
def dashboardDemos (env : DashEnv) : List (String × DemoInst) :=
  [ ("destructuring", .destructuring Destructuring.DestructuringDemo.init),
    ("spread-rest", .spreadRest SpreadRest.SpreadRestDemo.init),
    ("arrow-functions", .arrowFunctions Arrow.ArrowFunctionDemo.init),
    ("template-literals", .templateLiterals Template.TemplateLiteralDemo.init),
    ("advanced-patterns", .advancedPatterns Advanced.AdvancedPatternsDemo.init),
    ("performance", .performance { testData := env.perfData }) ]

/-- `this.demos.get(action)`. -/
def demosGet (env : DashEnv) (action : String) : Option DemoInst :=
  ((dashboardDemos env).find? (fun kv => kv.1 = action)).map (fun kv => kv.2)

/-- The slice of the page the dashboard reads and writes: `innerHTML` by
element id, the code display's content, the console, and which output
elements currently carry the `highlight` class. -/
structure Dom where
  inner : String → String
  codeShown : String
  consoleLog : List String
  highlighted : List String

/-- A pointwise `innerHTML` update. -/
def setInner (f : String → String) (id val : String) : String → String :=
  fun j => if j = id then val else f j

/-- The markup `handleError` writes:
`<span class="error">Error: $\x7berror.message\x7d</span>`. -/
def errorSpan (msg : String) : String :=
  "<span class=\"error\">Error: " ++ msg ++ "</span>"

/-- `handleError(action, error)`: write the error span into
`$\x7baction\x7d-output` and log `console.error` (its two arguments joined
here into one line). -/
def handleError (action msg : String) (dom : Dom) : Dom :=
  { dom with
      inner := setInner dom.inner (action ++ "-output") (errorSpan msg)
      consoleLog := dom.consoleLog ++ ["Demo " ++ action ++ " failed: " ++ msg] }

/-- `runDemo(action, demo)` after `demo.run()` settled: on success write the
output, show the code and add the `highlight` class (its removal 2000ms later
and the scroll are cosmetic timer effects outside this model); on a caught
error, `handleError` -- and nothing else: no retry, no recovery. -/
def runDemo (action : String) (runResult : Except String DemoResult) (dom : Dom) : Dom :=
  match runResult with
  | .ok result =>
      { dom with
          inner := setInner dom.inner (action ++ "-output") result.output
          codeShown := result.code
          highlighted := dom.highlighted ++ [action ++ "-output"] }
  | .error msg => handleError action msg dom

/-- What `handleDemoClick` reads off the event target: its class list and its
`data-action` attribute (absent attribute: `none`). -/
structure ClickEvent where
  classes : List String
  action : Option String
deriving Repr, DecidableEq

/-- `handleDemoClick(event)`: return unless the target has class `demo-btn`;
look the `data-action` up in the demos map; run the demo if found.  Returns
the dispatched action (if any) and the page afterwards. -/
def handleDemoClick (env : DashEnv) (ev : ClickEvent) (dom : Dom) : Option String × Dom :=
  if "demo-btn" ∈ ev.classes then
    match ev.action with
    | some action =>
        match demosGet env action with
        | some demo => (some action, runDemo action (demo.run env).1 dom)
        | none => (none, dom)
    | none => (none, dom)
  else (none, dom)

end Dashboard

/-! ## Auxiliary definitions for the verification statements -/

namespace Advanced

/-- Total number of handlers with id `i` registered anywhere in the emitter
(a `once` registration contributes one, until its wrapper unsubscribes). -/
def idCount (i : Nat) (E : Emitter) : Nat :=
  (E.events.map (fun kv => kv.2.countP (fun h => h.id = i))).sum

/-- A sequence of emits, collecting every invoked callback id in order. -/
def runEmits (E : Emitter) : List (String × Option String) → Emitter × List Nat
  | [] => (E, [])
  | (ev, data) :: rest =>
      let step := emit E ev data
      let tail := runEmits step.1 rest
      (tail.1, step.2 ++ tail.2)

/-- Every handler with id `i` anywhere in the emitter is a `once` wrapper
(as after registering id `i` through `once` and nothing else under that
id). -/
def OnceOnly (i : Nat) (E : Emitter) : Prop :=
  ∀ kv ∈ E.events, ∀ h ∈ kv.2, h.id = i → h.once = true

end Advanced

/-- A concrete dashboard environment, for instantiating the theorems. -/
def sampleEnv : Dashboard.DashEnv :=
  { nowIso := "2024-01-01T00:00:00.000Z"
    nowMs := 1704067200000
    perfData := []
    perfTimes :=
      { eagerTime := 1, lazyTime := 1, linearTime := 1, binaryTime := 1,
        hashTime := 1, sequentialTime := 1, parallelTime := 1, batchTime := 1 } }

/-- An empty page, for instantiating the theorems. -/
def emptyDom : Dashboard.Dom :=
  { inner := fun _ => "", codeShown := "", consoleLog := [], highlighted := [] }

/-! ## Claim theorems -/

/-- C1: `DestructuringDemo.nestedObjectDestructuring()` applied to the fixed
`sampleData` literal returns exactly the expected literal string: Name
`John Doe`, Email `john@example.com`, Theme `dark`, Email Notifications
`true`, Push Notifications `false` (the destructuring default
`push: pushNotif = true` is not applied because the stored `false` is
defined), Home City `New York`, Work City `San Francisco` (the default
`workAddress` is not applied because a second address exists). -/
theorem claim1_nested_destructuring_output :
    Destructuring.nestedObjectDestructuring Destructuring.sampleData =
      "🎯 Nested Object Destructuring:\nName: John Doe\nEmail: john@example.com\nTheme: dark\nEmail Notifications: true\nPush Notifications: false\nHome City: New York\nWork City: San Francisco" := by
  rfl

/-- C2: if a registered demo's `run()` rejects, `FeatureDashboard.runDemo`
catches the error and `handleError` writes the string `Error: ` followed by
the error's message (wrapped in the error span) into the element with id
`<action>-output` and logs the error to the console; nothing else changes:
no retry or other recovery occurs. -/
theorem claim2_error_path (action msg : String) (dom : Dashboard.Dom) :
    Dashboard.runDemo action (.error msg) dom = Dashboard.handleError action msg dom
    ∧ (Dashboard.handleError action msg dom).inner (action ++ "-output") =
        Dashboard.errorSpan msg
    ∧ Dashboard.errorSpan msg = "<span class=\"error\">" ++ ("Error: " ++ msg) ++ "</span>"
    ∧ (Dashboard.handleError action msg dom).inner =
        Dashboard.setInner dom.inner (action ++ "-output") (Dashboard.errorSpan msg)
    ∧ (Dashboard.handleError action msg dom).consoleLog =
        dom.consoleLog ++ ["Demo " ++ action ++ " failed: " ++ msg]
    ∧ (Dashboard.handleError action msg dom).codeShown = dom.codeShown
    ∧ (Dashboard.handleError action msg dom).highlighted = dom.highlighted := by
  refine ⟨rfl, ?_, rfl, rfl, rfl, rfl, rfl⟩
  simp [Dashboard.handleError, Dashboard.setInner]

/-- C3 (code-bug evidence): the registered advanced-patterns demo's `run()`
does NOT resolve to an `output`/`code` object: it rejects with the
`accessLog` TypeError of `Advanced.proxyPattern`. -/
theorem claim3_advanced_run_rejects :
    (Dashboard.DemoInst.run
        (.advancedPatterns Advanced.AdvancedPatternsDemo.init) sampleEnv).1 =
      .error Advanced.accessLogTypeError := by
  rfl

/-- C4: every registered demo is stateless across invocations: `run()`
returns every constructor-initialized instance field unchanged
(`DestructuringDemo.sampleData`, `SpreadRestDemo.baseUser`,
`AdvancedPatternsDemo.cache`/`observers`, `TemplateLiteralDemo.userData`,
`PerformanceDemo.testData`, ...),
for every instance value and environment, so repeated runs observe identical
input data. -/
theorem claim4_run_preserves_instance (inst : Dashboard.DemoInst) (env : Dashboard.DashEnv) :
    (inst.run env).2 = inst := by
  cases inst <;> rfl

/-- C7 (code-bug evidence): the throws the claim names are indeed
unreachable on the hard-coded inputs -- `UserModule.create` accepts both demo
users (so `modulePattern` succeeds) and the Proxy `set` trap accepts all
three demo assignments -- and yet the demo still rejects: reading
`smartUser.accessLog` through the `get` trap yields `undefined`, so
`log.slice(-3)` throws and the dashboard's error path IS taken. -/
theorem claim7_named_throws_unreachable_yet_run_rejects :
    (Advanced.modulePattern "t").isOk = true
    ∧ ((Advanced.smartSet { target := [], accessLog := [] } "name" (.str "John")).bind
        (fun st1 => (Advanced.smartSet st1 "age" (.num 30)).bind
          (fun st2 => Advanced.smartSet st2 "email" (.str "john@example.com")))).isOk = true
    ∧ Advanced.proxyPattern = .error Advanced.accessLogTypeError := by
  exact ⟨rfl, rfl, rfl⟩

/-- The demos map holds exactly the six registered keys. -/
theorem demosGet_isSome_iff (env : Dashboard.DashEnv) (a : String) :
    (Dashboard.demosGet env a).isSome = true ↔ a ∈ Dashboard.demoKeys := by
  by_cases h1 : "destructuring" = a <;>
    by_cases h2 : "spread-rest" = a <;>
      by_cases h3 : "arrow-functions" = a <;>
        by_cases h4 : "template-literals" = a <;>
          by_cases h5 : "advanced-patterns" = a <;>
            by_cases h6 : "performance" = a <;>
              simp_all [Dashboard.demosGet, Dashboard.dashboardDemos, Dashboard.demoKeys,
                List.find?, eq_comm]

/-- C5: `handleDemoClick` dispatches a demo run if and only if the click
target carries the class `demo-btn` and its `data-action` equals a key
registered in the demos map ; a click on any other element, or one whose
`data-action` matches no registered demo, dispatches nothing and leaves the
page exactly as it was. -/
theorem claim5_click_dispatch (env : Dashboard.DashEnv) (ev : Dashboard.ClickEvent)
    (dom : Dashboard.Dom) :
    ((Dashboard.handleDemoClick env ev dom).1.isSome = true ↔
      ("demo-btn" ∈ ev.classes ∧ ∃ a, ev.action = some a ∧ a ∈ Dashboard.demoKeys))
    ∧ ((Dashboard.handleDemoClick env ev dom).1 = none →
        (Dashboard.handleDemoClick env ev dom).2 = dom) := by
  by_cases hc : "demo-btn" ∈ ev.classes
  · cases hev : ev.action with
    | none => simp [Dashboard.handleDemoClick, hc, hev]
    | some a =>
        cases hg : Dashboard.demosGet env a with
        | none =>
            have hmem : ¬ a ∈ Dashboard.demoKeys := by
              rw [← demosGet_isSome_iff env a, hg]
              simp
            simp [Dashboard.handleDemoClick, hc, hev, hg, hmem]
        | some demo =>
            have hmem : a ∈ Dashboard.demoKeys := by
              rw [← demosGet_isSome_iff env a, hg]
              rfl
            simp [Dashboard.handleDemoClick, hc, hev, hg, hmem]
  · simp [Dashboard.handleDemoClick, hc]

/-- C5 witness: a `demo-btn` click with `data-action="destructuring"`
dispatches, and a click without the class leaves the empty page unchanged. -/
theorem claim5_click_dispatch_witness :
    (Dashboard.handleDemoClick sampleEnv
        { classes := ["demo-btn"], action := some "destructuring" } emptyDom).1.isSome = true
    ∧ (Dashboard.handleDemoClick sampleEnv
        { classes := ["other"], action := some "destructuring" } emptyDom).2 = emptyDom := by
  constructor
  · exact (claim5_click_dispatch sampleEnv
      { classes := ["demo-btn"], action := some "destructuring" } emptyDom).1.mpr
      ⟨by decide, "destructuring", rfl, by decide⟩
  · exact (claim5_click_dispatch sampleEnv
      { classes := ["other"], action := some "destructuring" } emptyDom).2 (by decide)

/-- A burst of `n >= 1` wrapper invocations leaves exactly one timer
pending: each new invocation clears the previous one. -/
theorem debRun_replicate_call (s : Perf.DebState) (n : Nat) (h : 1 ≤ n) :
    Perf.debRun s (List.replicate n .call) = { pending := true, execs := s.execs } := by
  induction n generalizing s with
  | zero => omega
  | succ m ih =>
      rw [List.replicate_succ]
      show Perf.debRun (Perf.debStep s .call) (List.replicate m .call) = _
      cases m with
      | zero => rfl
      | succ k => exact ih (Perf.debStep s .call) (Nat.succ_le_succ (Nat.zero_le k))

/-- C6: for every debounced wrapper, each new invocation clears the
previously pending timer, so `func` executes exactly once per burst of calls
terminated by the wait elapsing, and never without the wait elapsing; in the
performance demo's simulation, 50 rapid calls produce exactly 1 debounced
execution versus 50 direct executions. -/
theorem claim6_debounce_coalesces :
    (∀ (s : Perf.DebState) (n : Nat), 1 ≤ n →
        (Perf.debRun s (List.replicate n .call ++ [.elapse])).execs = s.execs + 1)
    ∧ (∀ (s : Perf.DebState) (evts : List Perf.DebEvent), Perf.DebEvent.elapse ∉ evts →
        (Perf.debRun s evts).execs = s.execs)
    ∧ (Perf.debRun { pending := false, execs := 0 } Perf.demoTrace).execs = 1
    ∧ Perf.demoTrace.count Perf.DebEvent.call = 50 := by
  refine ⟨?_, ?_, by decide, by decide⟩
  · intro s n h
    have hsplit : Perf.debRun s (List.replicate n .call ++ [.elapse]) =
        Perf.debRun (Perf.debRun s (List.replicate n .call)) [.elapse] := by
      simp [Perf.debRun, List.foldl_append]
    rw [hsplit, debRun_replicate_call s n h]
    rfl
  · intro s evts h
    induction evts generalizing s with
    | nil => rfl
    | cons e rest ih =>
        have he : e = Perf.DebEvent.call := by
          cases e
          · rfl
          · exact absurd (List.mem_cons_self _ _) h
        have hrest : Perf.DebEvent.elapse ∉ rest := fun hm => h (List.mem_cons_of_mem _ hm)
        subst he
        show (Perf.debRun (Perf.debStep s .call) rest).execs = s.execs
        rw [ih (Perf.debStep s .call) hrest]
        rfl

/-- C6 witness: a concrete burst of three calls then the elapse executes the
function exactly once; three calls with no elapse execute it not at all. -/
theorem claim6_debounce_coalesces_witness :
    (Perf.debRun { pending := false, execs := 0 } (List.replicate 3 .call ++ [.elapse])).execs = 0 + 1
    ∧ (Perf.debRun { pending := false, execs := 0 } [.call, .call, .call]).execs = 0 :=
  ⟨claim6_debounce_coalesces.1 { pending := false, execs := 0 } 3 (by decide),
   claim6_debounce_coalesces.2.1 { pending := false, execs := 0 } [.call, .call, .call] (by decide)⟩

/-- C9: for every function `fn`, key generator and argument, the wrapper
produced by `memoize` returns `\x7b result: fn(args), cached: false \x7d` on a
first call (unknown key) and stores the result; every later call whose
arguments serialize to the same key returns `\x7b result, cached: true \x7d`
with the stored result, without re-invoking `fn` (the hit branch does not
depend on `fn` at all); hence the demo's `fibonacci(10)` reports
`cached: false` on the first call and `cached: true` with the same value on
the second. -/
theorem claim9_memoize_caches_by_key :
    (∀ (α β : Type) (fn : α → β) (keyGenerator : α → String) (args : α)
        (cache : List (String × β)),
        Advanced.memoLookup cache (keyGenerator args) = none →
          (Advanced.memoCall fn keyGenerator args cache).1 = (fn args, false)
          ∧ (Advanced.memoCall fn keyGenerator args
              (Advanced.memoCall fn keyGenerator args cache).2).1 = (fn args, true))
    ∧ (∀ (α β : Type) (fn fn2 : α → β) (keyGenerator : α → String) (args : α)
        (cache : List (String × β)) (v : β),
        Advanced.memoLookup cache (keyGenerator args) = some v →
          Advanced.memoCall fn keyGenerator args cache = ((v, true), cache)
          ∧ Advanced.memoCall fn keyGenerator args cache =
              Advanced.memoCall fn2 keyGenerator args cache)
    ∧ (Advanced.fibMemo 10 []).1 = (.str Advanced.objObjStr, false)
    ∧ (Advanced.fibMemo 10 (Advanced.fibMemo 10 []).2).1 = (.str Advanced.objObjStr, true) := by
  refine ⟨?_, ?_, by decide, by decide⟩
  · intro α β fn keyGenerator args cache hmiss
    have h1 : Advanced.memoCall fn keyGenerator args cache =
        ((fn args, false), (keyGenerator args, fn args) :: cache) := by
      simp only [Advanced.memoCall]
      rw [hmiss]
    have h2 : Advanced.memoLookup ((keyGenerator args, fn args) :: cache) (keyGenerator args)
        = some (fn args) := by
      simp [Advanced.memoLookup, List.find?]
    constructor
    · rw [h1]
    · have h3 : (Advanced.memoCall fn keyGenerator args cache).2 =
          (keyGenerator args, fn args) :: cache := by rw [h1]
      rw [h3]
      simp only [Advanced.memoCall]
      rw [h2]
  · intro α β fn fn2 keyGenerator args cache v hhit
    constructor
    · simp [Advanced.memoCall, hhit]
    · simp [Advanced.memoCall, hhit]

/-- C9 witness: a first call on an empty cache computes and reports
`cached: false`; repeating it reports `cached: true` with the same value. -/
theorem claim9_memoize_caches_by_key_witness :
    (Advanced.memoCall Advanced.processDataFn (fun data => toString data) [1, 2, 3] []).1
      = ((12 : Int), false)
    ∧ (Advanced.memoCall Advanced.processDataFn (fun data => toString data) [1, 2, 3]
        (Advanced.memoCall Advanced.processDataFn (fun data => toString data) [1, 2, 3] []).2).1
      = ((12 : Int), true) :=
  ⟨(claim9_memoize_caches_by_key.1 (List Int) Int Advanced.processDataFn
      (fun data => toString data) [1, 2, 3] [] rfl).1,
   (claim9_memoize_caches_by_key.1 (List Int) Int Advanced.processDataFn
      (fun data => toString data) [1, 2, 3] [] rfl).2⟩

/-- Splicing a handler out yields a sublist: members were members before. -/
theorem eraseFirst_subset (p : Advanced.Handler → Bool) (l : List Advanced.Handler) :
    ∀ x ∈ Advanced.eraseFirst p l, x ∈ l := by
  induction l with
  | nil => intro x hx; simp [Advanced.eraseFirst] at hx
  | cons a as ih =>
      intro x hx
      by_cases ha : p a = true
      · simp [Advanced.eraseFirst, ha] at hx
        exact List.mem_cons_of_mem _ hx
      · simp [Advanced.eraseFirst, ha] at hx
        rcases hx with h | h
        · exact h ▸ List.mem_cons_self _ _
        · exact List.mem_cons_of_mem _ (ih x h)

/-- Splicing out the first handler with id `i` lowers the id-`i` count by
exactly one when one is present. -/
theorem eraseFirst_countP_self {i : Nat} {l : List Advanced.Handler}
    (h : 0 < l.countP (fun g => g.id = i)) :
    (Advanced.eraseFirst (fun g => g.id = i) l).countP (fun g => g.id = i) + 1 =
      l.countP (fun g => g.id = i) := by
  induction l with
  | nil => simp at h
  | cons a as ih =>
      by_cases ha : a.id = i
      · simp [Advanced.eraseFirst, ha, List.countP_cons]
      · have h' : 0 < as.countP (fun g => g.id = i) := by
          simpa [List.countP_cons, ha] using h
        simp [Advanced.eraseFirst, ha, List.countP_cons, ih h']

/-- Splicing anything out never raises an id count. -/
theorem eraseFirst_countP_le (p : Advanced.Handler → Bool) (i : Nat)
    (l : List Advanced.Handler) :
    (Advanced.eraseFirst p l).countP (fun g => g.id = i) ≤ l.countP (fun g => g.id = i) := by
  induction l with
  | nil => simp [Advanced.eraseFirst]
  | cons a as ih =>
      by_cases ha : p a = true
      · rw [show Advanced.eraseFirst p (a :: as) = as from by simp [Advanced.eraseFirst, ha]]
        rw [List.countP_cons]
        exact Nat.le_add_right _ _
      · rw [show Advanced.eraseFirst p (a :: as) = a :: Advanced.eraseFirst p as from by
          simp [Advanced.eraseFirst, ha]]
        rw [List.countP_cons, List.countP_cons]
        exact Nat.add_le_add_right ih _

/-- The unsubscribe update never raises the total id count. -/
theorem eraseHandler_sum_le (i j : Nat) (ev : String)
    (evs : List (String × List Advanced.Handler)) :
    ((Advanced.eraseHandler evs ev j).map (fun kv => kv.2.countP (fun h => h.id = i))).sum ≤
      (evs.map (fun kv => kv.2.countP (fun h => h.id = i))).sum := by
  induction evs with
  | nil => simp [Advanced.eraseHandler]
  | cons hd rest ih =>
      by_cases hk : hd.1 = ev
      · simp only [Advanced.eraseHandler, List.map_cons, List.sum_cons, if_pos hk] at ih ⊢
        exact Nat.add_le_add (eraseFirst_countP_le _ i hd.2) ih
      · simp only [Advanced.eraseHandler, List.map_cons, List.sum_cons, if_neg hk] at ih ⊢
        exact Nat.add_le_add_left ih _

/-- When the event's registered callbacks contain a handler with id `i`, the
unsubscribe update for id `i` lowers the total count by at least one. -/
theorem eraseHandler_sum_lt (i : Nat) (ev : String)
    (evs : List (String × List Advanced.Handler))
    (hfind : ∃ kv, evs.find? (fun x => x.1 = ev) = some kv ∧
      0 < kv.2.countP (fun h => h.id = i)) :
    ((Advanced.eraseHandler evs ev i).map (fun kv => kv.2.countP (fun h => h.id = i))).sum + 1 ≤
      (evs.map (fun kv => kv.2.countP (fun h => h.id = i))).sum := by
  induction evs with
  | nil =>
      obtain ⟨kv, hkv, _⟩ := hfind
      simp [List.find?] at hkv
  | cons hd rest ih =>
      obtain ⟨kv, hkv, hpos⟩ := hfind
      by_cases hk : hd.1 = ev
      · have hkv' : kv = hd := by
          simp [List.find?, hk] at hkv
          exact hkv.symm
        rw [hkv'] at hpos
        have hhd := eraseFirst_countP_self (i := i) (l := hd.2) hpos
        have htail := eraseHandler_sum_le i i ev rest
        simp only [Advanced.eraseHandler, List.map_cons, List.sum_cons, if_pos hk] at htail ⊢
        omega
      · have hkv' : rest.find? (fun x => x.1 = ev) = some kv := by
          simpa [List.find?, hk] using hkv
        have hrest := ih ⟨kv, hkv', hpos⟩
        simp only [Advanced.eraseHandler, List.map_cons, List.sum_cons, if_neg hk] at hrest ⊢
        omega

/-- A member of the looked-up callbacks array lives in the found map entry. -/
theorem lookupHandlers_find (E : Advanced.Emitter) (ev : String)
    (h : Advanced.Handler) (hmem : h ∈ Advanced.lookupHandlers E ev) :
    ∃ kv, E.events.find? (fun x => x.1 = ev) = some kv ∧ h ∈ kv.2 := by
  unfold Advanced.lookupHandlers at hmem
  cases hf : E.events.find? (fun x => x.1 = ev) with
  | none => rw [hf] at hmem; simp at hmem
  | some kv =>
      rw [hf] at hmem
      simp at hmem
      exact ⟨kv, rfl, hmem⟩

/-- Running one callback accounts correctly for the id budget: the run of an
id-`i` handler (necessarily a `once` wrapper under `OnceOnly`) removes one
id-`i` registration; any other run never adds one. -/
theorem runHandler_idCount (E : Advanced.Emitter) (ev : String) (data : Option String)
    (h : Advanced.Handler) (i : Nat)
    (honce : Advanced.OnceOnly i E) (hmem : h ∈ Advanced.lookupHandlers E ev) :
    Advanced.idCount i (Advanced.runHandler E ev data h) + (if h.id = i then 1 else 0) ≤
      Advanced.idCount i E := by
  obtain ⟨kv, hfind, hin⟩ := lookupHandlers_find E ev h hmem
  by_cases hid : h.id = i
  · have hkvmem : kv ∈ E.events := List.mem_of_find?_eq_some hfind
    have ho : h.once = true := honce kv hkvmem h hin hid
    have hpos : 0 < kv.2.countP (fun g => g.id = i) :=
      List.countP_pos_iff.mpr ⟨h, hin, by simp [hid]⟩
    have hlt := eraseHandler_sum_lt i ev E.events ⟨kv, hfind, hpos⟩
    simp only [Advanced.runHandler, ho, if_true, hid, if_pos]
    unfold Advanced.idCount
    simpa [hid] using hlt
  · simp only [hid, if_neg, ite_false, Nat.add_zero]
    unfold Advanced.runHandler
    by_cases ho : h.once = true
    · simp only [ho, if_true]
      unfold Advanced.idCount
      exact eraseHandler_sum_le i h.id ev E.events
    · simp only [ho, if_false]
      exact Nat.le_refl _

/-- Running a callback keeps `OnceOnly`: handlers present afterwards were
present before. -/
theorem onceOnly_runHandler (E : Advanced.Emitter) (ev : String) (data : Option String)
    (h : Advanced.Handler) (i : Nat) (honce : Advanced.OnceOnly i E) :
    Advanced.OnceOnly i (Advanced.runHandler E ev data h) := by
  unfold Advanced.runHandler
  by_cases ho : h.once = true
  · simp only [ho, if_true]
    intro kv hkv g hg hid
    unfold Advanced.eraseHandler at hkv
    obtain ⟨kv0, hkv0, hkveq⟩ := List.mem_map.mp hkv
    by_cases hk : kv0.1 = ev
    · rw [if_pos hk] at hkveq
      subst hkveq
      exact honce kv0 hkv0 g (eraseFirst_subset _ _ g hg) hid
    · rw [if_neg hk] at hkveq
      subst hkveq
      exact honce kv0 hkv0 g hg hid
  · simp only [ho, if_false]
    exact honce

/-- One unfolding step of the emit loop. -/
theorem emitLoop_step (ev : String) (data : Option String) (r k : Nat)
    (E : Advanced.Emitter) (inv : List Nat) :
    Advanced.emitLoop ev data (r + 1) k E inv =
      match (Advanced.lookupHandlers E ev).get? k with
      | some hd =>
          Advanced.emitLoop ev data r (k + 1) (Advanced.runHandler E ev data hd) (inv ++ [hd.id])
      | none => Advanced.emitLoop ev data r (k + 1) E inv := rfl

/-- The emit loop keeps `OnceOnly`. -/
theorem emitLoop_onceOnly (ev : String) (data : Option String) (i : Nat) :
    ∀ (remaining k : Nat) (E : Advanced.Emitter) (inv : List Nat),
      Advanced.OnceOnly i E →
      Advanced.OnceOnly i (Advanced.emitLoop ev data remaining k E inv).1 := by
  intro remaining
  induction remaining with
  | zero => intro k E inv h; exact h
  | succ r ih =>
      intro k E inv h
      rw [emitLoop_step]
      cases hg : (Advanced.lookupHandlers E ev).get? k with
      | some hd => exact ih (k + 1) _ _ (onceOnly_runHandler E ev data hd i h)
      | none => exact ih (k + 1) E inv h

/-- The emit loop's invocations of id `i` plus the id-`i` registrations left
never exceed the budget it started with. -/
theorem emitLoop_count_bound (ev : String) (data : Option String) (i : Nat) :
    ∀ (remaining k : Nat) (E : Advanced.Emitter) (inv : List Nat),
      Advanced.OnceOnly i E →
      (Advanced.emitLoop ev data remaining k E inv).2.count i +
          Advanced.idCount i (Advanced.emitLoop ev data remaining k E inv).1 ≤
        inv.count i + Advanced.idCount i E := by
  intro remaining
  induction remaining with
  | zero => intro k E inv h; exact Nat.le_refl _
  | succ r ih =>
      intro k E inv h
      cases hg : (Advanced.lookupHandlers E ev).get? k with
      | none =>
          have heq : Advanced.emitLoop ev data (r + 1) k E inv =
              Advanced.emitLoop ev data r (k + 1) E inv := by
            rw [emitLoop_step, hg]
          rw [heq]
          exact ih (k + 1) E inv h
      | some hd =>
          have heq : Advanced.emitLoop ev data (r + 1) k E inv =
              Advanced.emitLoop ev data r (k + 1)
                (Advanced.runHandler E ev data hd) (inv ++ [hd.id]) := by
            rw [emitLoop_step, hg]
          rw [heq]
          have hmem : hd ∈ Advanced.lookupHandlers E ev := List.get?_mem hg
          have hrh := runHandler_idCount E ev data hd i h hmem
          have honce2 := onceOnly_runHandler E ev data hd i h
          have hih := ih (k + 1) (Advanced.runHandler E ev data hd) (inv ++ [hd.id]) honce2
          have hcnt : (inv ++ [hd.id]).count i =
              inv.count i + (if hd.id = i then 1 else 0) := by
            by_cases hid : hd.id = i <;> simp [List.count_append, List.count_cons, hid]
          rw [hcnt] at hih
          by_cases hid : hd.id = i
          · rw [if_pos hid] at hrh hih
            omega
          · rw [if_neg hid] at hrh hih
            omega

/-- One whole `emit` keeps `OnceOnly` and respects the id budget. -/
theorem emit_count_bound (E : Advanced.Emitter) (ev : String) (data : Option String)
    (i : Nat) (h : Advanced.OnceOnly i E) :
    (Advanced.emit E ev data).2.count i + Advanced.idCount i (Advanced.emit E ev data).1 ≤
      Advanced.idCount i E := by
  have := emitLoop_count_bound ev data i (Advanced.lookupHandlers E ev).length 0 E [] h
  simpa using this

/-- One whole `emit` keeps `OnceOnly`. -/
theorem emit_onceOnly (E : Advanced.Emitter) (ev : String) (data : Option String)
    (i : Nat) (h : Advanced.OnceOnly i E) :
    Advanced.OnceOnly i (Advanced.emit E ev data).1 :=
  emitLoop_onceOnly ev data i (Advanced.lookupHandlers E ev).length 0 E [] h

/-- Over a whole trace of emits, invocations of id `i` plus remaining id-`i`
registrations never exceed the initial registrations. -/
theorem runEmits_count_bound (i : Nat) (trace : List (String × Option String)) :
    ∀ (E : Advanced.Emitter), Advanced.OnceOnly i E →
      (Advanced.runEmits E trace).2.count i +
          Advanced.idCount i (Advanced.runEmits E trace).1 ≤ Advanced.idCount i E := by
  induction trace with
  | nil => intro E _; simp [Advanced.runEmits]
  | cons p rest ih =>
      intro E h
      obtain ⟨ev, data⟩ := p
      have heq : Advanced.runEmits E ((ev, data) :: rest) =
          ((Advanced.runEmits (Advanced.emit E ev data).1 rest).1,
            (Advanced.emit E ev data).2 ++ (Advanced.runEmits (Advanced.emit E ev data).1 rest).2) := rfl
      rw [heq]
      have h1 := emit_count_bound E ev data i h
      have h2 := emit_onceOnly E ev data i h
      have h3 := ih (Advanced.emit E ev data).1 h2
      simp only [List.count_append]
      omega

/-- The looked-up callbacks of an event after an unsubscribe update are the
spliced callbacks of that event. -/
theorem lookupHandlers_eraseHandler (evs : List (String × List Advanced.Handler))
    (msgs : List String) (ev : String) (j : Nat) :
    Advanced.lookupHandlers ⟨Advanced.eraseHandler evs ev j, msgs⟩ ev =
      Advanced.eraseFirst (fun g => g.id = j) (Advanced.lookupHandlers ⟨evs, msgs⟩ ev) := by
  induction evs with
  | nil => rfl
  | cons hd rest ih =>
      by_cases hk : hd.1 = ev
      · simp [Advanced.lookupHandlers, Advanced.eraseHandler, List.find?, hk]
      · simpa [Advanced.lookupHandlers, Advanced.eraseHandler, List.find?, hk] using ih

/-- C10: a callback registered via `EventEmitter.once` is invoked at most
once: over any sequence of emits from a state whose only handler under its id
is the once wrapper, registered at most once, the wrapper runs at most once;
when it is the event's (sole) registered callback, the first emit runs it and
then unsubscribes it, so later emits of the event cannot invoke it; and in
the demo, emitting `system:startup` twice alongside one login and one logout
records exactly the 3 expected messages. -/
theorem claim10_once_at_most_once :
    (∀ (E : Advanced.Emitter) (i : Nat) (trace : List (String × Option String)),
        Advanced.OnceOnly i E → Advanced.idCount i E ≤ 1 →
        (Advanced.runEmits E trace).2.count i ≤ 1)
    ∧ (∀ (E : Advanced.Emitter) (ev : String) (data : Option String) (h : Advanced.Handler),
        Advanced.lookupHandlers E ev = [h] → h.once = true →
        (Advanced.emit E ev data).2 = [h.id]
        ∧ Advanced.lookupHandlers (Advanced.emit E ev data).1 ev = [])
    ∧ Advanced.observerMessages =
        ["System started (one-time event)", "User John logged in", "User John logged out"] := by
  refine ⟨?_, ?_, by decide⟩
  · intro E i trace honce hbudget
    have := runEmits_count_bound i trace E honce
    omega
  · intro E ev data h hl ho
    have e0 : Advanced.emitLoop ev data 1 0 E [] =
        match (Advanced.lookupHandlers E ev).get? 0 with
        | some hd =>
            Advanced.emitLoop ev data 0 1 (Advanced.runHandler E ev data hd) ([] ++ [hd.id])
        | none => Advanced.emitLoop ev data 0 1 E [] := rfl
    have e1 : Advanced.emit E ev data = (Advanced.runHandler E ev data h, [h.id]) := by
      unfold Advanced.emit
      rw [hl]
      rw [show ([h] : List Advanced.Handler).length = 1 from rfl] at *
      rw [e0, hl]
      rfl
    constructor
    · rw [e1]
    · rw [e1]
      show Advanced.lookupHandlers (Advanced.runHandler E ev data h) ev = []
      unfold Advanced.runHandler
      rw [if_pos ho]
      have : Advanced.lookupHandlers
          ⟨Advanced.eraseHandler E.events ev h.id, E.messages ++ [Advanced.msgOf h.act data]⟩ ev =
            Advanced.eraseFirst (fun g => g.id = h.id)
              (Advanced.lookupHandlers ⟨E.events, E.messages ++ [Advanced.msgOf h.act data]⟩ ev) :=
        lookupHandlers_eraseHandler E.events _ ev h.id
      rw [this]
      have hsame : Advanced.lookupHandlers
          ⟨E.events, E.messages ++ [Advanced.msgOf h.act data]⟩ ev =
            Advanced.lookupHandlers E ev := rfl
      rw [hsame, hl]
      simp [Advanced.eraseFirst]

/-- C10 witness: a concrete emitter with one `once` handler, emitted twice,
invokes it at most once; a single-handler event runs and unsubscribes it on
the first emit; the demo messages are as recorded. -/
theorem claim10_once_at_most_once_witness :
    (Advanced.runEmits
        { events := [("boot", [{ id := 7, once := true, act := .startupMsg }])], messages := [] }
        [("boot", none), ("boot", none)]).2.count 7 ≤ 1
    ∧ (Advanced.emit
        { events := [("boot", [{ id := 7, once := true, act := .startupMsg }])], messages := [] }
        "boot" none).2 = [7] := by
  constructor
  · exact claim10_once_at_most_once.1
      { events := [("boot", [{ id := 7, once := true, act := .startupMsg }])], messages := [] }
      7 [("boot", none), ("boot", none)]
      (by unfold Advanced.OnceOnly; decide) (by decide)
  · exact (claim10_once_at_most_once.2.1
      { events := [("boot", [{ id := 7, once := true, act := .startupMsg }])], messages := [] }
      "boot" none { id := 7, once := true, act := .startupMsg } (by decide) rfl).1

/-- In a list sorted by non-decreasing score, the score is monotone in the
index. -/
theorem sorted_score_mono {arr : List Perf.URec}
    (hs : List.Pairwise (fun a b => a.score ≤ b.score) arr)
    {i j : Nat} (hij : i ≤ j) (hj : j < arr.length) :
    (arr.get ⟨i, Nat.lt_of_le_of_lt hij hj⟩).score ≤ (arr.get ⟨j, hj⟩).score := by
  rcases Nat.lt_or_ge i j with hlt | hge
  · exact List.pairwise_iff_get.mp hs ⟨i, Nat.lt_of_le_of_lt hij hj⟩ ⟨j, hj⟩ hlt
  · have hij' : i = j := Nat.le_antisymm hij hge
    subst hij'
    exact le_refl _

/-- `Array.prototype.find` characterized by the least matching index. -/
theorem find?_eq_get_of_first {p : Perf.URec → Bool} {arr : List Perf.URec} {i : Nat}
    (hi : i < arr.length) (hpi : p (arr.get ⟨i, hi⟩) = true)
    (hmin : ∀ k (hk : k < i), p (arr.get ⟨k, Nat.lt_trans hk hi⟩) = false) :
    arr.find? p = some (arr.get ⟨i, hi⟩) := by
  induction arr generalizing i with
  | nil => exact absurd hi (Nat.not_lt_zero i)
  | cons a l ih =>
      cases i with
      | zero =>
          have hpa : p a = true := hpi
          simp [List.find?, hpa]
      | succ m =>
          have ha : p a = false := hmin 0 (Nat.succ_pos m)
          simp only [List.find?, ha]
          exact ih (Nat.lt_of_succ_lt_succ hi) hpi
            (fun k hk => hmin (k + 1) (Nat.succ_lt_succ hk))

/-- A successful `find` is the element at the least matching index. -/
theorem find?_some_first {p : Perf.URec → Bool} {arr : List Perf.URec} {u : Perf.URec}
    (h : arr.find? p = some u) :
    ∃ (i : Nat) (hi : i < arr.length), arr.get ⟨i, hi⟩ = u ∧ p u = true ∧
      ∀ k (hk : k < i), p (arr.get ⟨k, Nat.lt_trans hk hi⟩) = false := by
  induction arr with
  | nil => simp [List.find?] at h
  | cons a l ih =>
      by_cases ha : p a = true
      · have hu : u = a := by
          simp [List.find?, ha] at h
          exact h.symm
        subst hu
        exact ⟨0, Nat.succ_pos _, rfl, ha, fun k hk => absurd hk (Nat.not_lt_zero k)⟩
      · have h' : l.find? p = some u := by
          have ha' : p a = false := Bool.eq_false_iff.mpr ha
          simpa [List.find?, ha'] using h
        obtain ⟨i, hi, hget, hpu, hmin⟩ := ih h'
        refine ⟨i + 1, Nat.succ_lt_succ hi, hget, hpu, ?_⟩
        intro k hk
        cases k with
        | zero => exact Bool.eq_false_iff.mpr ha
        | succ m => exact hmin m (Nat.lt_of_succ_lt_succ hk)

/-- Defaulted indexing agrees with in-range indexing. -/
theorem list_getD_eq_get {l : List Perf.URec} {n : Nat} (hn : n < l.length) :
    l.getD n default = l.get ⟨n, hn⟩ := by
  rw [List.getD_eq_getElem l default hn, List.get_eq_getElem]

/-- When no record reaches the target, the binary-search loop returns null
whatever in-range window it is given. -/
theorem bsAux_none {arr : List Perf.URec} {target : ℚ}
    (hall : ∀ u ∈ arr, ¬ target ≤ u.score) :
    ∀ (left right : Int), 0 ≤ left → right < (arr.length : Int) →
      Perf.bsAux arr target left right = none := by
  intro left right
  generalize hm : (right + 1 - left).toNat = m
  induction m using Nat.strong_induction_on generalizing left right with
  | _ m ih =>
      intro h0 hlen
      rw [Perf.bsAux]
      by_cases hlr : left ≤ right
      · rw [if_pos hlr]
        set mid := (left + right) / 2 with hmiddef
        have hmid1 : left ≤ mid := by omega
        have hmid2 : mid ≤ right := by omega
        have hmidlen : mid.toNat < arr.length := by omega
        have hget : arr.getD mid.toNat default = arr.get ⟨mid.toNat, hmidlen⟩ :=
          list_getD_eq_get hmidlen
        have hnot : ¬ target ≤ (arr.getD mid.toNat default).score := by
          rw [hget]
          exact hall _ (arr.get_mem mid.toNat hmidlen)
        rw [if_neg hnot]
        exact ih _ (by omega) (mid + 1) right rfl (by omega) hlen
      · rw [if_neg hlr]

/-- When the least index `i` reaching the target lies in the window, the
binary-search loop returns exactly the record at `i`. -/
theorem bsAux_finds {arr : List Perf.URec} {target : ℚ}
    (hs : List.Pairwise (fun a b => a.score ≤ b.score) arr)
    {i : Nat} (hi : i < arr.length)
    (hpi : target ≤ (arr.get ⟨i, hi⟩).score)
    (hmin : ∀ k (hk : k < i), ¬ target ≤ (arr.get ⟨k, Nat.lt_trans hk hi⟩).score) :
    ∀ (left right : Int), 0 ≤ left → right < (arr.length : Int) →
      left ≤ (i : Int) → (i : Int) ≤ right →
      Perf.bsAux arr target left right = some (arr.get ⟨i, hi⟩) := by
  intro left right
  generalize hm : (right + 1 - left).toNat = m
  induction m using Nat.strong_induction_on generalizing left right with
  | _ m ih =>
      intro h0 hlen hli hir
      have hlr : left ≤ right := le_trans hli hir
      rw [Perf.bsAux, if_pos hlr]
      set mid := (left + right) / 2 with hmiddef
      have hmid1 : left ≤ mid := by omega
      have hmid2 : mid ≤ right := by omega
      have hmidlen : mid.toNat < arr.length := by omega
      have hget : arr.getD mid.toNat default = arr.get ⟨mid.toNat, hmidlen⟩ :=
        list_getD_eq_get hmidlen
      by_cases hc : target ≤ (arr.getD mid.toNat default).score
      · rw [if_pos hc]
        have him : i ≤ mid.toNat := by
          by_contra hgt
          push_neg at hgt
          exact (hmin mid.toNat hgt) (hget ▸ hc)
        by_cases hin : mid = 0 ∨ (arr.getD (mid - 1).toNat default).score < target
        · rw [if_pos hin]
          have hieq : mid.toNat = i := by
            by_cases hz : mid = 0
            · omega
            · rcases hin with h0' | hlt'
              · omega
              · have hm1len : (mid - 1).toNat < arr.length := by omega
                have hget1 : arr.getD (mid - 1).toNat default =
                    arr.get ⟨(mid - 1).toNat, hm1len⟩ := list_getD_eq_get hm1len
                rw [hget1] at hlt'
                have hlt2 : (mid - 1).toNat < i := by
                  by_contra hge
                  push_neg at hge
                  have hmono := sorted_score_mono hs hge hm1len
                  exact absurd (le_trans hpi hmono) (not_le.mpr hlt')
                omega
          rw [hget]
          exact congrArg some (congrArg arr.get (Fin.ext hieq))
        · rw [if_neg hin]
          push_neg at hin
          obtain ⟨hz, hge1⟩ := hin
          have hm1len : (mid - 1).toNat < arr.length := by omega
          have hget1 : arr.getD (mid - 1).toNat default =
              arr.get ⟨(mid - 1).toNat, hm1len⟩ := list_getD_eq_get hm1len
          rw [hget1] at hge1
          have hile : i ≤ (mid - 1).toNat := by
            by_contra hgt
            push_neg at hgt
            exact (hmin (mid - 1).toNat hgt) hge1
          exact ih _ (by omega) left (mid - 1) rfl h0 (by omega) hli (by omega)
      · rw [if_neg hc]
        have hlt : mid.toNat < i := by
          by_contra hge
          push_neg at hge
          have hmono := sorted_score_mono hs hge hmidlen
          rw [hget] at hc
          exact hc (le_trans hpi hmono)
        exact ih _ (by omega) (mid + 1) right rfl (by omega) hlen (by omega) hir

/-- C8: on every array of records sorted in non-decreasing order of score and
for every target, the `binarySearch` of `algorithmOptimization` returns the
same record as the linear `arr.find(u => u.score >= target)` -- the
lowest-index record whose score reaches the target -- and returns null
exactly when no record's score does. -/
theorem claim8_binarySearch_matches_linear (arr : List Perf.URec) (target : ℚ)
    (hs : List.Pairwise (fun a b => a.score ≤ b.score) arr) :
    Perf.binarySearch arr target = arr.find? (fun u => target ≤ u.score)
    ∧ (Perf.binarySearch arr target = none ↔ ∀ u ∈ arr, ¬ target ≤ u.score) := by
  have hmain : Perf.binarySearch arr target = arr.find? (fun u => target ≤ u.score) := by
    cases hf : arr.find? (fun u => target ≤ u.score) with
    | none =>
        have hall : ∀ u ∈ arr, ¬ target ≤ u.score := by
          intro u hu
          have := List.find?_eq_none.mp hf u hu
          simpa using this
        unfold Perf.binarySearch
        exact bsAux_none hall 0 ((arr.length : Int) - 1) le_rfl (by omega)
    | some u =>
        obtain ⟨i, hi, hget, hpu, hminb⟩ := find?_some_first hf
        have hpi : target ≤ (arr.get ⟨i, hi⟩).score := by
          rw [hget]
          simpa using hpu
        have hmin : ∀ k (hk : k < i), ¬ target ≤ (arr.get ⟨k, Nat.lt_trans hk hi⟩).score := by
          intro k hk
          have := hminb k hk
          simpa using this
        unfold Perf.binarySearch
        rw [bsAux_finds hs hi hpi hmin 0 ((arr.length : Int) - 1)
          le_rfl (by omega) (by omega) (by omega), hget]
  refine ⟨hmain, ?_⟩
  rw [hmain]
  constructor
  · intro hnone u hu
    have := List.find?_eq_none.mp hnone u hu
    simpa using this
  · intro hall
    apply List.find?_eq_none.mpr
    intro u hu
    simpa using hall u hu

/-- C8 witness: on a concrete sorted list, the binary search agrees with the
linear scan (and the scan finds the lowest-index record with score at least
50). -/
theorem claim8_binarySearch_matches_linear_witness :
    Perf.binarySearch
        [⟨0, "a", 10, true⟩, ⟨1, "b", 20, false⟩, ⟨2, "c", 55, true⟩, ⟨3, "d", 90, true⟩]
        50 =
      List.find? (fun u => (50 : ℚ) ≤ u.score)
        [⟨0, "a", 10, true⟩, ⟨1, "b", 20, false⟩, ⟨2, "c", 55, true⟩, ⟨3, "d", 90, true⟩] :=
  (claim8_binarySearch_matches_linear
    [⟨0, "a", 10, true⟩, ⟨1, "b", 20, false⟩, ⟨2, "c", 55, true⟩, ⟨3, "d", 90, true⟩]
    50 (by norm_num [List.pairwise_cons])).1
